import Mathlib

/-!
Verification of the data-viewer backend (`backend/app`): capability tokens
(`core/security.py`), org-scoped authorization lookups (`core/deps.py`),
signup pending-share conversion (`api/auth.py`), dataset sharing
(`api/admin.py`), the item-type registry (`services/item_registry.py`) and
the ingestion endpoints (`api/ingest.py`), shallowly embedded as executable
Lean definitions with theorems about them.
-/

namespace DataViewer

/-! ## Python-level string primitives used by `core/security.py`

Python `str` values are embedded as `List Char`.  The token code uses
`str.split(":")`, `str.rsplit(":", 1)`, `int(...)`, f-string decimal
rendering of ints, and `hmac.compare_digest`; each is modelled below.
Exceptions relevant to the `try/except (ValueError, TypeError)` wrappers
are modelled with `PyExc`. -/

abbrev PyStr := List Char

/-- Exceptions that can arise in the modelled fragments: `ValueError`
(`int()` on a non-numeric string, tuple-unpack arity mismatch),
`TypeError` (`hmac.compare_digest` on non-ASCII str), and a stand-in for
any other exception class. -/
inductive PyExc where
  | valueError
  | typeError
  | otherError
deriving DecidableEq, Repr

def isDigitChar (c : Char) : Bool := 48 ≤ c.toNat && c.toNat ≤ 57

def digitVal (c : Char) : Nat := c.toNat - 48

/-- Fold a run of decimal digits left-to-right onto `acc`; `none` on the
first non-digit. -/
def parseDigits : List Char → Nat → Option Nat
  | [], acc => some acc
  | c :: cs, acc =>
    if isDigitChar c then parseDigits cs (acc * 10 + digitVal c) else none

/-- Model of Python `int(s)` restricted to optional sign plus ASCII decimal
digits (the forms the token code produces and the forms whose
accept/reject status the claims depend on); anything else raises
`ValueError` exactly as `int()` does. -/
def pyInt (s : PyStr) : Except PyExc Int :=
  match s with
  | [] => .error .valueError
  | c :: cs =>
    if c = '-' then
      match cs, parseDigits cs 0 with
      | _ :: _, some n => .ok (-(n : Int))
      | _, _ => .error .valueError
    else if c = '+' then
      match cs, parseDigits cs 0 with
      | _ :: _, some n => .ok ((n : Int))
      | _, _ => .error .valueError
    else
      match parseDigits (c :: cs) 0 with
      | some n => .ok ((n : Int))
      | none => .error .valueError

/-- Model of Python `s.split(":")`: `"" ↦ [""]`, separators keep empty
fields. -/
def splitOnColon : List Char → List (List Char)
  | [] => [[]]
  | c :: cs =>
    if c = ':' then [] :: splitOnColon cs
    else
      match splitOnColon cs with
      | [] => [[c]]
      | h :: t => (c :: h) :: t

/-- Model of Python `s.rsplit(":", 1)`: split at the last colon, one-element
list when there is no colon. -/
def rsplit1 (s : List Char) : List (List Char) :=
  match s.reverse.span (fun c => c ≠ ':') with
  | (_, []) => [s]
  | (tail, _ :: rest) => [rest.reverse, tail.reverse]

/-- Decimal digit character, as produced by Python f-string rendering of a
nonnegative int digit. -/
def digitChar (d : Nat) : Char :=
  if d = 0 then '0' else if d = 1 then '1' else if d = 2 then '2'
  else if d = 3 then '3' else if d = 4 then '4' else if d = 5 then '5'
  else if d = 6 then '6' else if d = 7 then '7' else if d = 8 then '8'
  else '9'

/-- Fuel-indexed digit expansion; `fuel` strictly dominates the number of
divisions by ten, so the `[]` fuel-exhaustion case is unreachable in
`natDecimal`. -/
def natDecimalAux : Nat → Nat → List Char
  | 0, _ => []
  | fuel + 1, n =>
    if n < 10 then [digitChar n]
    else natDecimalAux fuel (n / 10) ++ [digitChar (n % 10)]

/-- Decimal rendering of a natural number (Python `f"{n}"` for `n ≥ 0`). -/
def natDecimal (n : Nat) : List Char := natDecimalAux (n + 1) n

/-- Decimal rendering of an int (Python `f"{i}"`). -/
def intDecimal : Int → List Char
  | .ofNat n => natDecimal n
  | .negSucc m => '-' :: natDecimal (m + 1)

def isAsciiStr (s : PyStr) : Bool := s.all (fun c => c.toNat < 128)

/-- Model of `hmac.compare_digest` on `str` arguments: equality comparison,
raising `TypeError` when either side is not ASCII-only. -/
def compare_digest (a b : PyStr) : Except PyExc Bool :=
  if isAsciiStr a && isAsciiStr b then .ok (a == b) else .error .typeError

/-! ## Capability tokens (`core/security.py`)

The HMAC-SHA256 primitive is an external collaborator; it is passed in as
an abstract function `mac : secret → message → tag`.  All token theorems
hold for every `mac` whose tags are colon-free ASCII (true of
`hexdigest()` output). -/

abbrev Mac := PyStr → PyStr → PyStr

/-- Tags of `mac secret` are ASCII and colon-free, as hex digests are. -/
def MacHexLike (mac : Mac) (secret : PyStr) : Prop :=
  ∀ m : PyStr, (∀ c ∈ mac secret m, c ≠ ':') ∧ isAsciiStr (mac secret m) = true

/-- The signed message of `create_upload_token`:
`f"{asset_id}:{org_id}:{dataset_id}:{byte_size}:{expiry_ts}"`. -/
def upload_token_message (asset_id org_id dataset_id : PyStr)
    (byte_size expiry_ts : Int) : PyStr :=
  asset_id ++ ':' :: org_id ++ ':' :: dataset_id ++ ':' ::
    intDecimal byte_size ++ ':' :: intDecimal expiry_ts

/-- Model of `create_upload_token` (security.py:93-103): message plus hex HMAC tag,
expiry = now + upload_token_ttl_seconds. -/
def create_upload_token (mac : Mac) (secret_key : PyStr)
    (upload_token_ttl_seconds : Int) (now : Int)
    (asset_id org_id dataset_id : PyStr) (byte_size : Int) : PyStr :=
  let expiry_ts := now + upload_token_ttl_seconds
  let message := upload_token_message asset_id org_id dataset_id byte_size expiry_ts
  message ++ ':' :: mac secret_key message

/-- Field checks of `verify_upload_token` on the already-split message
(security.py:126-136): exactly five components, exact id matches, parsed
size match, parsed expiry not in the past. -/
def vt_fields (now : Int) (asset_id org_id dataset_id : PyStr)
    (byte_size : Int) (comp : List PyStr) : Except PyExc Bool :=
  match comp with
  | [c0, c1, c2, c3, c4] =>
    if c0 != asset_id || c1 != org_id || c2 != dataset_id then .ok false
    else
      match pyInt c3 with
      | .error e => .error e
      | .ok n3 =>
        if n3 ≠ byte_size then .ok false
        else
          match pyInt c4 with
          | .error e => .error e
          | .ok n4 => if now > n4 then .ok false else .ok true
  | _ => .ok false

/-- Signature stage of `verify_upload_token` on the already-rsplit token
(security.py:115-125): exactly two parts, constant-time tag comparison,
then the field checks on `message.split(":")`. -/
def vt_signed (mac : Mac) (secret_key : PyStr) (now : Int)
    (asset_id org_id dataset_id : PyStr) (byte_size : Int)
    (parts : List PyStr) : Except PyExc Bool :=
  match parts with
  | [message, sig] =>
    (match compare_digest sig (mac secret_key message) with
     | .error e => .error e
     | .ok eqSig =>
       if !eqSig then .ok false
       else vt_fields now asset_id org_id dataset_id byte_size
         (splitOnColon message))
  | _ => .ok false

/-- Body of `verify_upload_token` inside its `try:` block
(security.py:114-136), with explicit exception propagation. -/
def verify_upload_token_checks (mac : Mac) (secret_key : PyStr) (now : Int)
    (token asset_id org_id dataset_id : PyStr) (byte_size : Int) :
    Except PyExc Bool :=
  vt_signed mac secret_key now asset_id org_id dataset_id byte_size
    (rsplit1 token)

/-- Model of `except (ValueError, TypeError): return False` wrapper; any other
exception class would propagate. -/
def pyCatchVT (r : Except PyExc Bool) : Except PyExc Bool :=
  match r with
  | .error .valueError => .ok false
  | .error .typeError => .ok false
  | r => r

/-- Model of `verify_upload_token` (security.py:106-138). -/
def verify_upload_token (mac : Mac) (secret_key : PyStr) (now : Int)
    (token asset_id org_id dataset_id : PyStr) (byte_size : Int) :
    Except PyExc Bool :=
  pyCatchVT (verify_upload_token_checks mac secret_key now token asset_id
    org_id dataset_id byte_size)

/-- Model of `create_asset_stream_token` (security.py:58-66):
`f"{asset_id}:{org_id}:{int(time.time())}"` plus tag. -/
def create_asset_stream_token (mac : Mac) (secret_key : PyStr) (now : Int)
    (asset_id org_id : PyStr) : PyStr :=
  let message := asset_id ++ ':' :: org_id ++ ':' :: intDecimal now
  message ++ ':' :: mac secret_key message

/-- Body of `verify_asset_stream_token` inside its `try:` block
(security.py:71-88).  `pref, ts = message.rsplit(":", 1)` raises
`ValueError` when `message` has no colon. -/
def vs_fields (signed_url_ttl_seconds now : Int) (asset_id org_id : PyStr)
    (mparts : List PyStr) : Except PyExc Bool :=
  match mparts with
  | [pref, ts] =>
    if pref != asset_id ++ ':' :: org_id then .ok false
    else
      match pyInt ts with
      | .error e => .error e
      | .ok n =>
        if now - n > signed_url_ttl_seconds then .ok false
        else .ok true
  | _ => .error .valueError

def vs_signed (mac : Mac) (secret_key : PyStr)
    (signed_url_ttl_seconds now : Int) (asset_id org_id : PyStr)
    (parts : List PyStr) : Except PyExc Bool :=
  match parts with
  | [message, sig] =>
    (match compare_digest sig (mac secret_key message) with
     | .error e => .error e
     | .ok eqSig =>
       if !eqSig then .ok false
       else vs_fields signed_url_ttl_seconds now asset_id org_id
         (rsplit1 message))
  | _ => .ok false

def verify_asset_stream_token_checks (mac : Mac) (secret_key : PyStr)
    (signed_url_ttl_seconds : Int) (now : Int)
    (token asset_id org_id : PyStr) : Except PyExc Bool :=
  vs_signed mac secret_key signed_url_ttl_seconds now asset_id org_id
    (rsplit1 token)

/-- Model of `verify_asset_stream_token` (security.py:69-90). -/
def verify_asset_stream_token (mac : Mac) (secret_key : PyStr)
    (signed_url_ttl_seconds : Int) (now : Int)
    (token asset_id org_id : PyStr) : Except PyExc Bool :=
  pyCatchVT (verify_asset_stream_token_checks mac secret_key
    signed_url_ttl_seconds now token asset_id org_id)

/-! ## JSON values

Item payloads and annotation data are JSON structures (`payload: dict` in
the manifest).  Numbers: `jint` is a JSON integer; `jfloat` stands for a
JSON number with a nonzero fractional part (its value is irrelevant to
every claim, only its type class matters to validation). -/

inductive JVal where
  | jnull
  | jbool (b : Bool)
  | jint (n : Int)
  | jfloat
  | jstr (s : String)
  | jarr (xs : List JVal)
  | jobj (fields : List (String × JVal))

/-! ## Database rows (`db/models.py`)

Ids (UUID columns) are embedded as `String` (their canonical text form).
Only the columns the claims touch are kept; `created_at` timestamps and
server-generated primary keys of pure ACL rows are dropped. -/

structure UserRow where
  id : String
  org_id : String
  email : String
  role : String
  is_active : Bool
deriving DecidableEq, Repr

structure DatasetRow where
  id : String
  org_id : String
  status : String
  published_at : Option Int
deriving DecidableEq, Repr

structure DatasetAccessRow where
  org_id : String
  dataset_id : String
  user_id : String
  access_role : String
  created_by_user_id : String
deriving DecidableEq, Repr

structure PendingShareRow where
  org_id : String
  dataset_id : String
  email : String
  access_role : String
  created_by_user_id : String
deriving DecidableEq, Repr

structure AssetRow where
  id : String
  org_id : String
  dataset_id : String
  item_id : Option String
  kind : String
  storage_key : String
  content_type : String
  byte_size : Int
deriving DecidableEq, Repr

structure ItemRow where
  id : String
  org_id : String
  dataset_id : String
  itype : String
  title : Option String
  summary : Option String
  payload : JVal

structure AnnRow where
  org_id : String
  dataset_id : String
  item_id : String
  schema : String
  data : JVal

/-- The relational store: one list per table. -/
structure DB where
  orgs : List String
  users : List UserRow
  datasets : List DatasetRow
  dataset_access : List DatasetAccessRow
  pending_shares : List PendingShareRow
  assets : List AssetRow
  items : List ItemRow
  anns : List AnnRow

/-- Model of `fastapi.HTTPException(status_code, detail)`. -/
structure HttpError where
  status : Nat
  detail : String
deriving DecidableEq, Repr

def NOT_FOUND : String := "Not found"

/-! ## Org-scoped authorization lookups (`core/deps.py`) -/

/-- Model of `get_dataset_for_user` (deps.py:126-148): dataset must exist in the
user's org; viewers additionally need a `DatasetAccess` row; every failure
is 404 `"Not found"`. -/
def get_dataset_for_user (db : DB) (user : UserRow) (dataset_id : String) :
    Except HttpError DatasetRow :=
  match db.datasets.find? (fun d => d.id == dataset_id && d.org_id == user.org_id) with
  | none => .error ⟨404, NOT_FOUND⟩
  | some row =>
    if user.role == "admin" || user.role == "publisher" then .ok row
    else
      match db.dataset_access.find? (fun a =>
          a.dataset_id == dataset_id && a.user_id == user.id && a.org_id == user.org_id) with
      | none => .error ⟨404, NOT_FOUND⟩
      | some _ => .ok row

/-- Model of `get_item_for_user` (deps.py:151-160): item in user's org, then the
dataset gate. -/
def get_item_for_user (db : DB) (user : UserRow) (item_id : String) :
    Except HttpError ItemRow :=
  match db.items.find? (fun i => i.id == item_id && i.org_id == user.org_id) with
  | none => .error ⟨404, NOT_FOUND⟩
  | some row => do
    let _ ← get_dataset_for_user db user row.dataset_id
    pure row

/-- Model of `get_asset_for_user` (deps.py:163-172): asset in user's org, then the
dataset gate. -/
def get_asset_for_user (db : DB) (user : UserRow) (asset_id : String) :
    Except HttpError AssetRow :=
  match db.assets.find? (fun a => a.id == asset_id && a.org_id == user.org_id) with
  | none => .error ⟨404, NOT_FOUND⟩
  | some row => do
    let _ ← get_dataset_for_user db user row.dataset_id
    pure row

/-! ## Signup and pending-share conversion (`api/auth.py`) -/

/-- Model of `_resolve_signup_org` (auth.py:80-97): org of the first pending share
for the email, else the configured default org (`none` models both an
unset and an unparseable `default_org_id`), else the first organization by
id; 503 when no organization exists. -/
def resolve_signup_org (db : DB) (default_org_id : Option String)
    (email : String) : Except HttpError String :=
  match db.pending_shares.find? (fun p => p.email == email) with
  | some p => .ok p.org_id
  | none =>
    match default_org_id with
    | some o => .ok o
    | none =>
      match db.orgs.min? with
      | some o => .ok o
      | none => .error ⟨503, "No organization configured"⟩

/-- Model of `signup` (auth.py:100-164), database effects only (cookies, audit log
and the password hash are external).  Creates a viewer in the resolved
org, converts every pending share with that org **and** email into a
`DatasetAccess` row and deletes it; 409 when the email is registered; the
`scalar_one()` lookup of the org raises (500) when the org row is
missing. -/
def signup (db : DB) (default_org_id : Option String) (new_user_id : String)
    (email : String) : Except HttpError (DB × UserRow) :=
  match db.users.find? (fun u => u.email == email) with
  | some _ => .error ⟨409, "Email already registered"⟩
  | none =>
    match resolve_signup_org db default_org_id email with
    | .error e => .error e
    | .ok org_id =>
      let user : UserRow :=
        { id := new_user_id, org_id := org_id, email := email,
          role := "viewer", is_active := true }
      let matched := db.pending_shares.filter (fun p =>
        p.org_id == org_id && p.email == email)
      let db2 : DB :=
        { db with
          users := db.users ++ [user],
          dataset_access := db.dataset_access ++ matched.map (fun p =>
            { org_id := p.org_id, dataset_id := p.dataset_id,
              user_id := new_user_id, access_role := p.access_role,
              created_by_user_id := p.created_by_user_id }),
          pending_shares := db.pending_shares.filter (fun p =>
            !(p.org_id == org_id && p.email == email)) }
      if db.orgs.contains org_id then .ok (db2, user)
      else .error ⟨500, "Internal Server Error"⟩

/-! ## Dataset sharing (`api/admin.py`) -/

/-- Constructor shorthand for `DatasetAccess(...)` rows. -/
def mkAccessRow (org dataset_id user_id access_role created_by : String) :
    DatasetAccessRow :=
  ⟨org, dataset_id, user_id, access_role, created_by⟩

/-- Constructor shorthand for `PendingDatasetShare(...)` rows. -/
def mkPendingRow (org dataset_id email access_role created_by : String) :
    PendingShareRow :=
  ⟨org, dataset_id, email, access_role, created_by⟩

/-- Model of `body.access_role if body.access_role in ("viewer", "editor") else
"viewer"` (admin.py:77,94). -/
def normalize_access_role (r : String) : String :=
  if r == "viewer" || r == "editor" then r else "viewer"

/-- Model of `add_dataset_share` (admin.py:47-98) including its
`require_admin_or_publisher` dependency: share a dataset with an email;
an existing matching row (ACL or pending) makes the call a no-op. -/
def add_dataset_share (db : DB) (user : UserRow)
    (dataset_id email access_role : String) : Except HttpError DB :=
  if !(user.role == "admin" || user.role == "publisher") then
    .error ⟨403, "Admin or publisher role required"⟩
  else
    match get_dataset_for_user db user dataset_id with
    | .error e => .error e
    | .ok _ =>
      match db.users.find? (fun u =>
          u.email == email && u.org_id == user.org_id && u.is_active) with
      | some target =>
        match db.dataset_access.find? (fun a =>
            a.dataset_id == dataset_id && a.user_id == target.id) with
        | some _ => .ok db
        | none =>
          .ok { db with dataset_access := db.dataset_access ++
            [mkAccessRow user.org_id dataset_id target.id
              (normalize_access_role access_role) user.id] }
      | none =>
        match db.pending_shares.find? (fun p =>
            p.dataset_id == dataset_id && p.email == email) with
        | some _ => .ok db
        | none =>
          .ok { db with pending_shares := db.pending_shares ++
            [mkPendingRow user.org_id dataset_id email
              (normalize_access_role access_role) user.id] }

/-- Number of `DatasetAccess` rows granting `email` (through a user row
carrying that email) access to dataset `dataset_id`. -/
def share_access_count (db : DB) (dataset_id email : String) : Nat :=
  (db.dataset_access.filter (fun a => a.dataset_id == dataset_id &&
    db.users.any (fun u => u.id == a.user_id && u.email == email))).length

/-- Number of `PendingDatasetShare` rows for `(dataset_id, email)`. -/
def share_pending_count (db : DB) (dataset_id email : String) : Nat :=
  (db.pending_shares.filter (fun p =>
    p.dataset_id == dataset_id && p.email == email)).length

/-! ## Item-type registry (`services/item_registry.py`)

The registry models are pydantic v2 `BaseModel`s with `extra="forbid"`,
validated in lax (python) mode.  The embedding reproduces pydantic's
structured errors: a list of `(type, loc, msg)` entries.  Pydantic
behaviours relied on: `str` accepts only `str`; `int` accepts int,
int-parseable str, but not bool or a fractional number; `float` accepts
int, float or float-parseable str but not bool; `UUID` accepts a
UUID-shaped string; unknown keys are `extra_forbidden`; a `ValueError`
(including a nested `pydantic.ValidationError`, which subclasses
`ValueError`) raised inside a `model_validator` surfaces as one error of
type `value_error` whose message is `"Value error, "` plus the exception
text. -/

structure PErr where
  etype : String
  loc : List String
  msg : String
deriving DecidableEq, Repr

/-- Prefix every error location with a field name / index segment. -/
def underField (seg : String) (errs : List PErr) : List PErr :=
  errs.map (fun e => { e with loc := seg :: e.loc })

/-- First value for a key in a JSON object (Python dict keys are unique). -/
def jLookup (fields : List (String × JVal)) (k : String) : Option JVal :=
  (fields.find? (fun f => f.1 == k)).map (fun f => f.2)

/-- Lax-mode `str` field. -/
def strFieldErrs (j : JVal) : List PErr :=
  match j with
  | .jstr _ => []
  | _ => [⟨"string_type", [], "Input should be a valid string"⟩]

/-- Lax-mode `int` field. -/
def intFieldErrs (j : JVal) : List PErr :=
  match j with
  | .jint _ => []
  | .jstr s =>
    match pyInt s.data with
    | .ok _ => []
    | .error _ => [⟨"int_parsing", [],
        "Input should be a valid integer, unable to parse string as an integer"⟩]
  | .jfloat => [⟨"int_from_float", [],
      "Input should be a valid integer, got a number with a fractional part"⟩]
  | _ => [⟨"int_type", [], "Input should be a valid integer"⟩]

/-- Lax-mode `float` field. -/
def floatFieldErrs (j : JVal) : List PErr :=
  match j with
  | .jint _ => []
  | .jfloat => []
  | .jstr s =>
    match pyInt s.data with
    | .ok _ => []
    | .error _ => [⟨"float_parsing", [],
        "Input should be a valid number, unable to parse string as a number"⟩]
  | _ => [⟨"float_type", [], "Input should be a valid number"⟩]

def isLowerHexDigit (c : Char) : Bool :=
  isDigitChar c || (97 ≤ c.toNat && c.toNat ≤ 102)

/-- Canonical 8-4-4-4-12 lowercase-hex UUID text (the form the backend
itself mints via `uuid4()`; pydantic's additional accepted spellings are
outside the behaviours any claim touches). -/
def uuidShape : List Char → Nat → Bool
  | [], i => i == 36
  | c :: cs, i =>
    (if i == 8 || i == 13 || i == 18 || i == 23 then c == '-'
     else isLowerHexDigit c) && uuidShape cs (i + 1)

def isUuidStr (s : String) : Bool := uuidShape s.data 0

/-- Lax-mode `UUID` field. -/
def uuidFieldErrs (j : JVal) : List PErr :=
  match j with
  | .jstr s =>
    if isUuidStr s then []
    else [⟨"uuid_parsing", [], "Input should be a valid UUID"⟩]
  | _ => [⟨"uuid_type", [], "UUID input should be a string"⟩]

/-- Model of `dict[str, Any]` field. -/
def dictFieldErrs (j : JVal) : List PErr :=
  match j with
  | .jobj _ => []
  | _ => [⟨"dict_type", [], "Input should be a valid dictionary"⟩]

/-- Model of `T | None` optional field with default `None`: absent or null is fine,
otherwise check `T`. -/
def optFieldErrs (check : JVal → List PErr) (j : Option JVal) : List PErr :=
  match j with
  | none => []
  | some .jnull => []
  | some v => check v

/-- Required field: absent is a `missing` error, otherwise check `T`. -/
def reqFieldErrs (check : JVal → List PErr) (j : Option JVal) : List PErr :=
  match j with
  | none => [⟨"missing", [], "Field required"⟩]
  | some v => check v

/-- Model of `extra="forbid"`: every key outside `allowed` is an error. -/
def extraForbidErrs (allowed : List String) (fields : List (String × JVal)) :
    List PErr :=
  (fields.filter (fun f => !(allowed.contains f.1))).map (fun f =>
    ⟨"extra_forbidden", [f.1], "Extra inputs are not permitted"⟩)

/-- Model of `list[T]` field with an optional `min_length`. -/
def listFieldErrs (check : JVal → List PErr) (minLen : Nat) (j : JVal) :
    List PErr :=
  match j with
  | .jarr xs =>
    (if xs.length < minLen then
      [⟨"too_short", [],
        "List should have at least " ++ toString minLen ++ " items"⟩]
     else []) ++
    (xs.enum.flatMap (fun ix => underField (toString ix.1) (check ix.2)))
  | _ => [⟨"list_type", [], "Input should be a valid list"⟩]

/-- Model of `dict[str, T]` field: each value checked under its key. -/
def dictOfFieldErrs (check : JVal → List PErr) (j : JVal) : List PErr :=
  match j with
  | .jobj fs => fs.flatMap (fun f => underField f.1 (check f.2))
  | _ => [⟨"dict_type", [], "Input should be a valid dictionary"⟩]

/-- Model of `FullRankData`: `order: list[str]`, `annotator_count: int`,
extra forbidden. -/
def validateFullRankData (j : JVal) : List PErr :=
  match j with
  | .jobj fields =>
    underField "order" (reqFieldErrs (listFieldErrs strFieldErrs 0) (jLookup fields "order")) ++
    underField "annotator_count" (reqFieldErrs intFieldErrs (jLookup fields "annotator_count")) ++
    extraForbidErrs ["order", "annotator_count"] fields
  | _ => [⟨"model_type", [],
      "Input should be a valid dictionary or instance of FullRankData"⟩]

/-- Model of `ScoresData`: `scores: dict[str, float]`, `scale: str`,
extra forbidden. -/
def validateScoresData (j : JVal) : List PErr :=
  match j with
  | .jobj fields =>
    underField "scores" (reqFieldErrs (dictOfFieldErrs floatFieldErrs) (jLookup fields "scores")) ++
    underField "scale" (reqFieldErrs strFieldErrs (jLookup fields "scale")) ++
    extraForbidErrs ["scores", "scale"] fields
  | _ => [⟨"model_type", [],
      "Input should be a valid dictionary or instance of ScoresData"⟩]

/-- Text of a raised `pydantic.ValidationError` as seen by `str(exc)`:
enough structure is kept (each error's message and `[type=...]` tag) for
the `"forbid" in msg.lower()` test in `_validation_errors_from_pydantic`
to behave as in Python. -/
def strOfValidationError (model : String) (errs : List PErr) : String :=
  toString errs.length ++ " validation error for " ++ model ++ ": " ++
    String.intercalate "; " (errs.map (fun e =>
      String.intercalate "." e.loc ++ " " ++ e.msg ++ " [type=" ++ e.etype ++ "]"))

/-- Model of `RankingsPayload`: `method` (pattern `^(pairwise|full_rank|scores)$`),
`data: dict[str, Any]`, extra forbidden; then the `mode="after"` validator
runs `FullRankData` / `ScoresData` on `data`, and the
`pydantic.ValidationError` it may raise is caught as a `ValueError`,
producing a single `value_error` at the model's own location. -/
def validateRankingsPayload (j : JVal) : List PErr :=
  match j with
  | .jobj fields =>
    let methodErrs := underField "method" (reqFieldErrs (fun v =>
      match v with
      | .jstr s =>
        if s == "pairwise" || s == "full_rank" || s == "scores" then []
        else [⟨"string_pattern_mismatch", [],
          "String should match pattern ^(pairwise|full_rank|scores)$"⟩]
      | _ => [⟨"string_type", [], "Input should be a valid string"⟩]) (jLookup fields "method"))
    let dataErrs := underField "data" (reqFieldErrs dictFieldErrs (jLookup fields "data"))
    let fieldErrs := methodErrs ++ dataErrs ++ extraForbidErrs ["method", "data"] fields
    if !fieldErrs.isEmpty then fieldErrs
    else
      match jLookup fields "method", jLookup fields "data" with
      | some (.jstr m), some d =>
        if m == "full_rank" then
          match validateFullRankData d with
          | [] => []
          | inner => [⟨"value_error", [],
              "Value error, " ++ strOfValidationError "FullRankData" inner⟩]
        else if m == "scores" then
          match validateScoresData d with
          | [] => []
          | inner => [⟨"value_error", [],
              "Value error, " ++ strOfValidationError "ScoresData" inner⟩]
        else []
      | _, _ => []
  | _ => [⟨"model_type", [],
      "Input should be a valid dictionary or instance of RankingsPayload"⟩]

/-- Model field (`rankings: RankingsPayload`). -/
def validateImagePairComparePayload (j : JVal) : List PErr :=
  match j with
  | .jobj fields =>
    underField "left_asset_id" (reqFieldErrs uuidFieldErrs (jLookup fields "left_asset_id")) ++
    underField "right_asset_id" (reqFieldErrs uuidFieldErrs (jLookup fields "right_asset_id")) ++
    underField "prompt" (reqFieldErrs strFieldErrs (jLookup fields "prompt")) ++
    underField "metadata" (optFieldErrs dictFieldErrs (jLookup fields "metadata")) ++
    extraForbidErrs ["left_asset_id", "right_asset_id", "prompt", "metadata"] fields
  | _ => [⟨"model_type", [],
      "Input should be a valid dictionary or instance of ImagePairComparePayload"⟩]

/-- Model of `ImageRankedGalleryPayload`: `asset_ids: list[UUID]` with
`min_length=2`, `prompt: str`, `rankings: RankingsPayload`, optional
`metadata`, extra forbidden. -/
def validateImageRankedGalleryPayload (j : JVal) : List PErr :=
  match j with
  | .jobj fields =>
    underField "asset_ids" (reqFieldErrs (listFieldErrs uuidFieldErrs 2) (jLookup fields "asset_ids")) ++
    underField "prompt" (reqFieldErrs strFieldErrs (jLookup fields "prompt")) ++
    underField "rankings" (reqFieldErrs validateRankingsPayload (jLookup fields "rankings")) ++
    underField "metadata" (optFieldErrs dictFieldErrs (jLookup fields "metadata")) ++
    extraForbidErrs ["asset_ids", "prompt", "rankings", "metadata"] fields
  | _ => [⟨"model_type", [],
      "Input should be a valid dictionary or instance of ImageRankedGalleryPayload"⟩]

def validateVideoWithTimelinePayload (j : JVal) : List PErr :=
  match j with
  | .jobj fields =>
    underField "video_asset_id" (reqFieldErrs uuidFieldErrs (jLookup fields "video_asset_id")) ++
    underField "poster_image_asset_id" (optFieldErrs uuidFieldErrs (jLookup fields "poster_image_asset_id")) ++
    underField "metadata" (optFieldErrs dictFieldErrs (jLookup fields "metadata")) ++
    extraForbidErrs ["video_asset_id", "poster_image_asset_id", "metadata"] fields
  | _ => [⟨"model_type", [],
      "Input should be a valid dictionary or instance of VideoWithTimelinePayload"⟩]

def validateAudioWithCaptionsPayload (j : JVal) : List PErr :=
  match j with
  | .jobj fields =>
    underField "audio_asset_id" (reqFieldErrs uuidFieldErrs (jLookup fields "audio_asset_id")) ++
    underField "metadata" (optFieldErrs dictFieldErrs (jLookup fields "metadata")) ++
    extraForbidErrs ["audio_asset_id", "metadata"] fields
  | _ => [⟨"model_type", [],
      "Input should be a valid dictionary or instance of AudioWithCaptionsPayload"⟩]

/-- Model of `_ITEM_TYPE_REGISTRY` validator column (item_registry.py:162-179). -/
def registryValidator (item_type : String) : Option (JVal → List PErr) :=
  if item_type == "image_pair_compare" then some validateImagePairComparePayload
  else if item_type == "image_ranked_gallery" then some validateImageRankedGalleryPayload
  else if item_type == "video_with_timeline" then some validateVideoWithTimelinePayload
  else if item_type == "audio_with_captions" then some validateAudioWithCaptionsPayload
  else none

/-- Model of `get_supported_item_types` (item_registry.py:158-159). -/
def get_supported_item_types : List String :=
  ["image_pair_compare", "image_ranked_gallery", "video_with_timeline",
   "audio_with_captions"]

/-- Exceptions the registry functions raise: `pydantic.ValidationError`
(carrying the structured error list) or a plain `ValueError`. -/
inductive PyErrKind where
  | validationError (errs : List PErr)
  | valueError (msg : String)
deriving DecidableEq, Repr

/-- Model of `validate_payload` (item_registry.py:140-147): `ValueError` on an
unknown type, `ValidationError` on an invalid payload.  (The validated
dump is unused by callers; publish stores the raw payload.) -/
def validate_payload (item_type : String) (j : JVal) : Except PyErrKind Unit :=
  match registryValidator item_type with
  | none => .error (.valueError ("Unsupported item type: " ++ item_type))
  | some v =>
    match v j with
    | [] => .ok ()
    | errs => .error (.validationError errs)

/-- Asset-id extraction of each payload class, run after a successful
`model_validate` exactly as the Python static methods do; the fallback
`.ok []` branches are unreachable once validation has succeeded. -/
def extractIdsOfValidated (item_type : String) (j : JVal) : List String :=
  match item_type, j with
  | "image_pair_compare", .jobj fields =>
    (match jLookup fields "left_asset_id", jLookup fields "right_asset_id" with
     | some (.jstr l), some (.jstr r) => [l, r]
     | _, _ => [])
  | "image_ranked_gallery", .jobj fields =>
    (match jLookup fields "asset_ids" with
     | some (.jarr xs) => xs.flatMap (fun x => match x with | .jstr s => [s] | _ => [])
     | _ => [])
  | "video_with_timeline", .jobj fields =>
    (match jLookup fields "video_asset_id" with
     | some (.jstr v) => [v]
     | _ => []) ++
    (match jLookup fields "poster_image_asset_id" with
     | some (.jstr p) => [p]
     | _ => [])
  | "audio_with_captions", .jobj fields =>
    (match jLookup fields "audio_asset_id" with
     | some (.jstr a) => [a]
     | _ => [])
  | _, _ => []

/-- Model of `extract_asset_ids` (item_registry.py:150-155): `ValueError` on an
unknown type; re-validates the payload (`model_validate` inside each
`extract_asset_ids` static method) and raises `ValidationError` on an
invalid one; otherwise the referenced asset-id strings. -/
def extract_asset_ids (item_type : String) (j : JVal) :
    Except PyErrKind (List String) :=
  match registryValidator item_type with
  | none => .error (.valueError ("Unsupported item type: " ++ item_type))
  | some v =>
    match v j with
    | [] => .ok (extractIdsOfValidated item_type j)
    | errs => .error (.validationError errs)

/-- Model of `TimelineV1Data`: `events: list[dict[str, Any]]` with a default,
extra forbidden. -/
def validateTimelineV1Data (j : JVal) : List PErr :=
  match j with
  | .jobj fields =>
    (match jLookup fields "events" with
     | none => []
     | some v => underField "events" (listFieldErrs dictFieldErrs 0 v)) ++
    extraForbidErrs ["events"] fields
  | _ => [⟨"model_type", [],
      "Input should be a valid dictionary or instance of TimelineV1Data"⟩]

/-- Model of `CaptionsV1Segment`: optional `start`/`end` floats and `text` string,
extra forbidden. -/
def validateCaptionsV1Segment (j : JVal) : List PErr :=
  match j with
  | .jobj fields =>
    underField "start" (optFieldErrs floatFieldErrs (jLookup fields "start")) ++
    underField "end" (optFieldErrs floatFieldErrs (jLookup fields "end")) ++
    underField "text" (optFieldErrs strFieldErrs (jLookup fields "text")) ++
    extraForbidErrs ["start", "end", "text"] fields
  | _ => [⟨"model_type", [],
      "Input should be a valid dictionary or instance of CaptionsV1Segment"⟩]

/-- Model of `CaptionsV1Data`: `segments: list[CaptionsV1Segment]` with a default,
extra forbidden. -/
def validateCaptionsV1Data (j : JVal) : List PErr :=
  match j with
  | .jobj fields =>
    (match jLookup fields "segments" with
     | none => []
     | some v => underField "segments" (listFieldErrs validateCaptionsV1Segment 0 v)) ++
    extraForbidErrs ["segments"] fields
  | _ => [⟨"model_type", [],
      "Input should be a valid dictionary or instance of CaptionsV1Data"⟩]

/-- Model of Python `validate_annotation` (item_registry.py:128-134). -/
def validate_ann (schema : String) (j : JVal) : Except PyErrKind Unit :=
  if schema == "timeline_v1" then
    match validateTimelineV1Data j with
    | [] => .ok ()
    | errs => .error (.validationError errs)
  else if schema == "captions_v1" then
    match validateCaptionsV1Data j with
    | [] => .ok ()
    | errs => .error (.validationError errs)
  else .error (.valueError ("Unknown annotation schema: " ++ schema))

/-! ## Storage (`services/storage/local.py`)

The blob store is a key → byte-content map; only byte contents (and hence
lengths) are observable.  `head_object` reports the stored length and no
content type, as `LocalStorage.head_object` does; publish/append take the
head operation as a parameter so the theorems also cover other
backends. -/

abbrev Store := List (String × List Nat)

def storeLookup (st : Store) (key : String) : Option (List Nat) :=
  (st.find? (fun kv => kv.1 == key)).map (fun kv => kv.2)

/-- Model of `file_path.write_bytes(content)`. -/
def storeWrite (st : Store) (key : String) (content : List Nat) : Store :=
  (key, content) :: st.filter (fun kv => kv.1 != key)

structure HeadMeta where
  content_length : Option Int
  content_type : Option String
deriving DecidableEq, Repr

/-- Model of `LocalStorage.head_object` (local.py:47-53): `FileNotFoundError`
(the `.error` case) when the key is absent, else the size and no
content type. -/
def localHead (st : Store) (key : String) : Except Unit HeadMeta :=
  match storeLookup st key with
  | some content => .ok ⟨some (content.length : Int), none⟩
  | none => .error ()

/-! ## Upload endpoint (`api/ingest.py`, `upload_asset`, lines 144-202) -/

inductive UploadOut where
  | ok
  | err (e : HttpError)
  | crash (e : PyExc)
deriving DecidableEq, Repr

/-- Body of `upload_asset` after the session-or-token authentication block
(ingest.py:164-202): dataset state gate, append-only gate, the second
token check, exact byte-count check, optional scan hook, byte write. -/
def upload_asset_after_auth (mac : Mac) (secret_key : PyStr) (now : Int)
    (enable_av_scan : Bool) (scan : List Nat → String → String → Bool)
    (db : DB) (store : Store) (asset_id : String) (token : PyStr)
    (body : List Nat) (asset : AssetRow) : Store × UploadOut :=
  match db.datasets.find? (fun d => d.id == asset.dataset_id &&
      d.org_id == asset.org_id &&
      (d.status == "draft" || d.status == "published")) with
  | none => (store, .err ⟨409, "Dataset must be draft or published"⟩)
  | some _ =>
    match asset.item_id with
    | some _ => (store, .err ⟨409, "Asset already linked to an item"⟩)
    | none =>
      match verify_upload_token mac secret_key now token asset_id.data
          asset.org_id.data asset.dataset_id.data asset.byte_size with
      | .error e => (store, .crash e)
      | .ok false => (store, .err ⟨403, "Invalid or expired token"⟩)
      | .ok true =>
        if (body.length : Int) ≠ asset.byte_size then
          (store, .err ⟨422, "Size mismatch: expected " ++
            String.mk (intDecimal asset.byte_size) ++ ", got " ++
            String.mk (intDecimal (body.length : Int))⟩)
        else if enable_av_scan &&
            !(scan body asset.content_type asset.storage_key) then
          (store, .err ⟨422, "File did not pass security scan"⟩)
        else
          (storeWrite store asset.storage_key body, .ok)

/-- Model of `upload_asset` (ingest.py:144-202).  `user?` is the optional
session user; with a session the role gate and `get_asset_for_user` run,
without one the asset is fetched by id alone and the upload token must
verify (401 otherwise); both paths then continue identically. -/
def upload_asset (mac : Mac) (secret_key : PyStr) (now : Int)
    (enable_av_scan : Bool) (scan : List Nat → String → String → Bool)
    (db : DB) (store : Store) (user? : Option UserRow) (asset_id : String)
    (token : PyStr) (body : List Nat) : Store × UploadOut :=
  match user? with
  | some user =>
    if !(user.role == "admin" || user.role == "publisher") then
      (store, .err ⟨403, "Publisher or admin role required"⟩)
    else
      match get_asset_for_user db user asset_id with
      | .error e => (store, .err e)
      | .ok asset =>
        upload_asset_after_auth mac secret_key now enable_av_scan scan db
          store asset_id token body asset
  | none =>
    match db.assets.find? (fun a => a.id == asset_id) with
    | none => (store, .err ⟨404, "Not found"⟩)
    | some asset =>
      match verify_upload_token mac secret_key now token asset_id.data
          asset.org_id.data asset.dataset_id.data asset.byte_size with
      | .error e => (store, .crash e)
      | .ok false => (store, .err ⟨401, "Invalid or expired upload token"⟩)
      | .ok true =>
        upload_asset_after_auth mac secret_key now enable_av_scan scan db
          store asset_id token body asset

/-! ## Publish and append (`api/ingest.py`, lines 205-394 and 397-583) -/

/-- Manifest validation error item (`ManifestValidationErrorItem`). -/
structure MErr where
  path : String
  error_type : String
  message : String
deriving DecidableEq, Repr

structure AnnIn where
  schema : String
  data : JVal

structure MItem where
  itype : String
  title : Option String
  summary : Option String
  payload : JVal
  anns : List AnnIn

/-- Infix test on char lists. -/
def listInfix (needle : List Char) : List Char → Bool
  | [] => needle.isEmpty
  | c :: t => needle.isPrefixOf (c :: t) || listInfix needle t

/-- Python `needle in hay`. -/
def strContains (needle hay : String) : Bool := listInfix needle.data hay.data

/-- Python `s.lower()` (character-wise lowercasing). -/
def strLower (s : String) : String := String.mk (s.data.map Char.toLower)

/-- Model of `_validation_errors_from_pydantic` (ingest.py:40-55): join the
loc into a dotted path under `itemPre`, then coarsen the pydantic error
type by substring tests. -/
def _validation_errors_from_pydantic (errs : List PErr) (itemPre : String) :
    List MErr :=
  errs.map (fun e =>
    let loc := String.intercalate "." e.loc
    let path := if loc == "" then itemPre else itemPre ++ "." ++ loc
    let et :=
      if strContains "extra" e.etype || strContains "forbid" (strLower e.msg) then
        "extra_forbidden"
      else if strContains "missing" e.etype then "missing_required"
      else if strContains "type" e.etype || strContains "literal" e.etype then
        "wrong_type"
      else e.etype
    ⟨path, et, e.msg⟩)

/-- The `asset_ids_in_dataset` set of publish (ingest.py:242-248): every
asset allocated to the dataset. -/
def dataset_asset_ids (db : DB) (org dataset_id : String) : List String :=
  (db.assets.filter (fun a =>
    a.org_id == org && a.dataset_id == dataset_id)).map (fun a => a.id)

/-- The `asset_ids_in_dataset` set of append (ingest.py:434-441): only
assets not yet linked to an item. -/
def dataset_unlinked_asset_ids (db : DB) (org dataset_id : String) :
    List String :=
  (db.assets.filter (fun a =>
    a.org_id == org && a.dataset_id == dataset_id &&
      a.item_id.isNone)).map (fun a => a.id)

/-- Phase-1 checks for one manifest item (ingest.py:250-295 /
443-488): supported type, payload validation with error accumulation,
referenced-asset membership, annotation validation.  `missing_note` is
`""` for publish and `" (append)"` for append.  (The `extract_asset_ids`
error branch is unreachable: `validate_payload` just succeeded on the same
payload.) -/
def validate_manifest_item (asset_ids_in_dataset : List String)
    (missing_note : String) (i : Nat) (m : MItem) : List MErr :=
  let pre := "items[" ++ toString i ++ "]"
  if !(get_supported_item_types.contains m.itype) then
    [⟨pre, "unsupported_type", "Unsupported item type '" ++ m.itype ++ "'"⟩]
  else
    match validate_payload m.itype m.payload with
    | .error (.validationError errs) =>
      _validation_errors_from_pydantic errs (pre ++ ".payload")
    | .error (.valueError msg) => [⟨pre ++ ".payload", "invalid", msg⟩]
    | .ok _ =>
      (match extract_asset_ids m.itype m.payload with
       | .error _ => []
       | .ok refs =>
         let missing := refs.dedup.filter (fun r =>
           !(asset_ids_in_dataset.contains r))
         if missing.isEmpty then []
         else [⟨pre, "asset_not_uploaded",
           "Assets not uploaded for this dataset" ++ missing_note ++ ": " ++
             String.intercalate ", " missing⟩])
      ++ m.anns.enum.flatMap (fun jx =>
        match validate_ann jx.2.schema jx.2.data with
        | .ok _ => []
        | .error (.validationError errs) =>
          _validation_errors_from_pydantic errs
            (pre ++ ".annotations[" ++ toString jx.1 ++ "]")
        | .error (.valueError msg) =>
          [⟨pre ++ ".annotations[" ++ toString jx.1 ++ "]",
            "invalid_annotation", msg⟩])

/-- The unguarded `extract_asset_ids` sweep over **all** manifest items
(ingest.py:298-300 / 491-493); the first exception it raises propagates
out of the endpoint. -/
def extract_all : List MItem → Except PyErrKind (List (List String))
  | [] => .ok []
  | m :: rest =>
    match extract_asset_ids m.itype m.payload with
    | .error e => .error e
    | .ok refs =>
      match extract_all rest with
      | .error e => .error e
      | .ok rs => .ok (refs :: rs)

/-- Union of per-item referenced ids (`referenced_asset_ids` set; Python
set order is irrelevant to every property proved below). -/
def union_refs (rss : List (List String)) : List String := rss.flatten.dedup

/-- Storage integrity sweep (ingest.py:301-334 / 494-527): for each
referenced asset allocated to this dataset, head the object and compare
reported size and content type against the Asset row. -/
def integrity_errors (head : String → Except Unit HeadMeta) (db : DB)
    (org dataset_id : String) (asset_ids_in_dataset : List String)
    (referenced : List String) : List MErr :=
  referenced.flatMap (fun aid =>
    if !(asset_ids_in_dataset.contains aid) then []
    else
      match db.assets.find? (fun a => a.id == aid && a.org_id == org &&
          a.dataset_id == dataset_id) with
      | none => []
      | some row =>
        match head row.storage_key with
        | .error _ => [⟨"assets", "asset_missing_in_storage",
            "Asset " ++ aid ++ " not found in storage"⟩]
        | .ok meta =>
          (match meta.content_length with
           | some n =>
             if n ≠ row.byte_size then
               [⟨"assets", "asset_size_mismatch",
                 "Asset " ++ aid ++ ": expected size " ++
                   String.mk (intDecimal row.byte_size) ++ ", got " ++
                   String.mk (intDecimal n)⟩]
             else []
           | none => []) ++
          (match meta.content_type with
           | some ct =>
             if ct ≠ row.content_type then
               [⟨"assets", "asset_content_type_mismatch",
                 "Asset " ++ aid ++ ": expected type " ++ row.content_type ++
                   ", got " ++ ct⟩]
             else []
           | none => []))

inductive PubOut where
  | ok (item_count : Nat)
  | err (e : HttpError)
  | errList (status : Nat) (errors : List MErr)
  | crash (e : PyErrKind)
deriving DecidableEq, Repr

/-- Commit of one manifest item (ingest.py:345-378 / 537-569): insert the
Item row and its Annotation rows, then point every referenced asset of
this dataset at the new item (the SQL update filters on org, dataset and
id only). -/
def commit_one (org dataset_id iid : String) (m : MItem)
    (refs : List String) (db : DB) : DB :=
  let row : ItemRow :=
    { id := iid, org_id := org, dataset_id := dataset_id, itype := m.itype,
      title := m.title, summary := m.summary, payload := m.payload }
  { db with
    items := db.items ++ [row],
    anns := db.anns ++ m.anns.map (fun a =>
      { org_id := org, dataset_id := dataset_id, item_id := iid,
        schema := a.schema, data := a.data }),
    assets :=
      if refs.isEmpty then db.assets
      else db.assets.map (fun a =>
        if a.org_id == org && a.dataset_id == dataset_id &&
            refs.contains a.id then
          { a with item_id := some iid }
        else a) }

/-- Sequential commit of the whole manifest; `genId idx` models the
`uuid4()` drawn for the idx-th item. -/
def commit_list (genId : Nat → String) (org dataset_id : String) :
    Nat → List (MItem × List String) → DB → DB
  | _, [], db => db
  | idx, (m, refs) :: rest, db =>
    commit_list genId org dataset_id (idx + 1) rest
      (commit_one org dataset_id (genId idx) m refs db)

/-- Model of `publish_dataset` (ingest.py:205-394) including its
`require_publisher` dependency.  `head` is the storage head operation,
`rate_limited` the state of the external rate limiter, `genId` the item-id
source.  Returns the possibly-updated database and the outcome. -/
def publish_dataset (head : String → Except Unit HeadMeta)
    (ingest_enabled rate_limited : Bool) (genId : Nat → String) (now : Int)
    (db : DB) (user : UserRow) (dataset_id : String)
    (manifest : List MItem) : DB × PubOut :=
  if !(user.role == "admin" || user.role == "publisher") then
    (db, .err ⟨403, "Publisher or admin role required"⟩)
  else if !ingest_enabled then
    (db, .err ⟨503, "Ingestion is temporarily disabled"⟩)
  else if rate_limited then (db, .err ⟨429, "Too many requests"⟩)
  else
    match get_dataset_for_user db user dataset_id with
    | .error e => (db, .err e)
    | .ok dataset =>
      if dataset.status != "draft" then
        (db, .err ⟨409, "Dataset already published"⟩)
      else if manifest.isEmpty then
        (db, .err ⟨400, "Manifest must contain at least one item"⟩)
      else
        let asset_ids_in_dataset := dataset_asset_ids db user.org_id dataset_id
        let phase1 := manifest.enum.flatMap (fun ix =>
          validate_manifest_item asset_ids_in_dataset "" ix.1 ix.2)
        match extract_all manifest with
        | .error e => (db, .crash e)
        | .ok refsPerItem =>
          let validation_errors := phase1 ++ integrity_errors head db
            user.org_id dataset_id asset_ids_in_dataset (union_refs refsPerItem)
          if !validation_errors.isEmpty then
            (db, .errList 422 validation_errors)
          else
            let db2 := commit_list genId user.org_id dataset_id 0
              (manifest.zip refsPerItem) db
            let db3 := { db2 with datasets := db2.datasets.map (fun d =>
              if d.id == dataset_id && d.org_id == user.org_id then
                { d with status := "published", published_at := some now }
              else d) }
            (db3, .ok manifest.length)

/-- Model of `append_dataset` (ingest.py:397-583) including its
`require_publisher` dependency: like publish but the dataset must already
be published, only **unlinked** assets of the dataset count as uploaded,
and the dataset row is not modified. -/
def append_dataset (head : String → Except Unit HeadMeta)
    (ingest_enabled rate_limited : Bool) (genId : Nat → String)
    (db : DB) (user : UserRow) (dataset_id : String)
    (manifest : List MItem) : DB × PubOut :=
  if !(user.role == "admin" || user.role == "publisher") then
    (db, .err ⟨403, "Publisher or admin role required"⟩)
  else if !ingest_enabled then
    (db, .err ⟨503, "Ingestion is temporarily disabled"⟩)
  else if rate_limited then (db, .err ⟨429, "Too many requests"⟩)
  else
    match get_dataset_for_user db user dataset_id with
    | .error e => (db, .err e)
    | .ok dataset =>
      if dataset.status != "published" then
        (db, .err ⟨409, "Can only append to a published dataset"⟩)
      else if manifest.isEmpty then
        (db, .err ⟨400, "Manifest must contain at least one item"⟩)
      else
        let asset_ids_in_dataset :=
          dataset_unlinked_asset_ids db user.org_id dataset_id
        let phase1 := manifest.enum.flatMap (fun ix =>
          validate_manifest_item asset_ids_in_dataset " (append)" ix.1 ix.2)
        match extract_all manifest with
        | .error e => (db, .crash e)
        | .ok refsPerItem =>
          let validation_errors := phase1 ++ integrity_errors head db
            user.org_id dataset_id asset_ids_in_dataset (union_refs refsPerItem)
          if !validation_errors.isEmpty then
            (db, .errList 422 validation_errors)
          else
            let db2 := commit_list genId user.org_id dataset_id 0
              (manifest.zip refsPerItem) db
            (db2, .ok manifest.length)

/-! ## Concrete fixtures used by counterexamples and witnesses -/

/-- An email with two pending shares in two different organizations. -/
def c7db : DB :=
  { orgs := ["o1", "o2"], users := [], datasets := [], dataset_access := [],
    pending_shares :=
      [⟨"o1", "d1", "x@y.com", "viewer", "u9"⟩,
       ⟨"o2", "d2", "x@y.com", "viewer", "u9"⟩],
    assets := [], items := [], anns := [] }

/-- A draft dataset, an admin, and an active viewer target for the share
endpoint. -/
def c8db : DB :=
  { orgs := ["o1"],
    users := [⟨"u0", "o1", "admin@x.com", "admin", true⟩,
              ⟨"u2", "o1", "e@x.com", "viewer", true⟩],
    datasets := [⟨"d1", "o1", "draft", none⟩],
    dataset_access := [], pending_shares := [], assets := [], items := [],
    anns := [] }

def c8user : UserRow := ⟨"u0", "o1", "admin@x.com", "admin", true⟩

/-- Expected database after sharing `d1` with `e@x.com` in `c8db`. -/
def c8db1 : DB :=
  { c8db with dataset_access := [⟨"o1", "d1", "u2", "viewer", "u0"⟩] }

/-- A stand-in HMAC for concrete token evaluations: constant colon-free
ASCII tag. -/
def wmac : Mac := fun _ _ => ['t', 'g']

/-- An admin, one draft dataset and one allocated (unlinked) asset of
declared size 3. -/
def c4user : UserRow := ⟨"u0", "o1", "p@x.com", "admin", true⟩

def c4asset : AssetRow := ⟨"a1", "o1", "d1", none, "image", "k1", "image/png", 3⟩

def c4db : DB :=
  { orgs := ["o1"], users := [c4user], datasets := [⟨"d1", "o1", "draft", none⟩],
    dataset_access := [], pending_shares := [], assets := [c4asset],
    items := [], anns := [] }

/-- A manifest whose single item has an unsupported type. -/
def c2manifest : List MItem := [⟨"bogus_type", none, none, .jobj [], []⟩]

/-- Canonical lowercase UUID strings used in payload fixtures. -/
def uuidA : String := "00000000-0000-4000-8000-00000000000a"

def uuidB : String := "00000000-0000-4000-8000-00000000000b"

/-- An `image_ranked_gallery` payload whose `full_rank` data carries a
non-integer `annotator_count` (the spec's scenario input). -/
def c9payload : JVal :=
  .jobj [("asset_ids", .jarr [.jstr uuidA, .jstr uuidB]),
         ("prompt", .jstr "Rank these"),
         ("rankings", .jobj [("method", .jstr "full_rank"),
                             ("data", .jobj [("order", .jarr [.jstr uuidA]),
                                             ("annotator_count",
                                              .jstr "not_an_int")])])]

/-- A well-formed `image_ranked_gallery` payload. -/
def c9good : JVal :=
  .jobj [("asset_ids", .jarr [.jstr uuidA, .jstr uuidB]),
         ("prompt", .jstr "Rank these"),
         ("rankings", .jobj [("method", .jstr "full_rank"),
                             ("data", .jobj [("order",
                                              .jarr [.jstr uuidA, .jstr uuidB]),
                                             ("annotator_count", .jint 3)])])]

/-- Shape facts forced by a successful `image_ranked_gallery` validation:
at least two UUID-string asset ids, a string prompt, a rankings object
with a recognised method and dict data, the per-method data shape
(`full_rank`: string order list plus int-coercible annotator count;
`scores`: number-coercible score map plus scale string), and no unknown
keys at any level. -/
def RankedGalleryShapeOk (j : JVal) : Prop :=
  ∃ fields, j = JVal.jobj fields ∧
    (∃ xs, jLookup fields "asset_ids" = some (.jarr xs) ∧ 2 ≤ xs.length ∧
      ∀ x ∈ xs, ∃ s, x = JVal.jstr s ∧ isUuidStr s = true) ∧
    (∃ ps, jLookup fields "prompt" = some (.jstr ps)) ∧
    (∃ rf, jLookup fields "rankings" = some (.jobj rf) ∧
      (∃ m, jLookup rf "method" = some (.jstr m) ∧
        (m = "pairwise" ∨ m = "full_rank" ∨ m = "scores")) ∧
      (∃ df, jLookup rf "data" = some (.jobj df) ∧
        (jLookup rf "method" = some (.jstr "full_rank") →
          (∃ ov, jLookup df "order" = some (.jarr ov) ∧
            ∀ x ∈ ov, ∃ s, x = JVal.jstr s) ∧
          (∃ av, jLookup df "annotator_count" = some av ∧
            intFieldErrs av = []) ∧
          (∀ f ∈ df, f.1 = "order" ∨ f.1 = "annotator_count")) ∧
        (jLookup rf "method" = some (.jstr "scores") →
          (∃ sv, jLookup df "scores" = some (.jobj sv) ∧
            ∀ kv ∈ sv, floatFieldErrs kv.2 = []) ∧
          (∃ sc, jLookup df "scale" = some (.jstr sc)) ∧
          (∀ f ∈ df, f.1 = "scores" ∨ f.1 = "scale"))) ∧
      (∀ f ∈ rf, f.1 = "method" ∨ f.1 = "data")) ∧
    (∀ f ∈ fields, f.1 = "asset_ids" ∨ f.1 = "prompt" ∨ f.1 = "rankings" ∨
      f.1 = "metadata")

/-- Uniform storage head on a store whose objects all have size 3 and report
no content type (the shape `LocalStorage.head_object` returns). -/
def okHead3 : String → Except Unit HeadMeta := fun _ => .ok ⟨some 3, none⟩

/-- An asset already linked to an item. -/
def c5linked : AssetRow :=
  ⟨"zz", "o1", "d1", some "i9", "audio", "kz", "audio/mpeg", 5⟩

/-- An allocated, unlinked asset whose id is a canonical UUID so manifests
can reference it. -/
def c5refAsset : AssetRow :=
  ⟨uuidA, "o1", "d1", none, "audio", "ka", "audio/mpeg", 3⟩

/-- A published dataset holding one linked and one unlinked asset. -/
def c5db : DB :=
  { orgs := ["o1"], users := [c4user],
    datasets := [⟨"d1", "o1", "published", some 5⟩],
    dataset_access := [], pending_shares := [],
    assets := [c5linked, c5refAsset], items := [], anns := [] }

/-- A manifest item referencing only the unlinked asset. -/
def c5mitem : MItem :=
  ⟨"audio_with_captions", none, none,
   .jobj [("audio_asset_id", .jstr uuidA)], []⟩

def c5manifest : List MItem := [c5mitem]

/-- A draft dataset holding only the unlinked UUID asset. -/
def c6db : DB :=
  { orgs := ["o1"], users := [c4user],
    datasets := [⟨"d1", "o1", "draft", none⟩],
    dataset_access := [], pending_shares := [], assets := [c5refAsset],
    items := [], anns := [] }

/-! ## Lemmas on the string primitives -/

theorem natDecimalAux_fuel : ∀ n fuel, n < fuel →
    natDecimalAux fuel n = natDecimal n := by
  intro n
  induction n using Nat.strong_induction_on with
  | _ n ih =>
    intro fuel hn
    cases fuel with
    | zero => omega
    | succ f =>
      by_cases h10 : n < 10
      · rw [natDecimalAux, if_pos h10, natDecimal, natDecimalAux, if_pos h10]
      · have hdiv : n / 10 < n := Nat.div_lt_self (by omega) (by omega)
        have hL : natDecimalAux (f + 1) n =
            natDecimal (n / 10) ++ [digitChar (n % 10)] := by
          rw [natDecimalAux, if_neg h10, ih (n / 10) hdiv f (by omega)]
        have hR : natDecimal n = natDecimal (n / 10) ++ [digitChar (n % 10)] := by
          rw [natDecimal, natDecimalAux, if_neg h10,
            ih (n / 10) hdiv n (by omega)]
        rw [hL, hR]

theorem natDecimal_eq (n : Nat) : natDecimal n =
    if n < 10 then [digitChar n]
    else natDecimal (n / 10) ++ [digitChar (n % 10)] := by
  rw [natDecimal, natDecimalAux]
  by_cases h10 : n < 10
  · rw [if_pos h10, if_pos h10]
  · have hdiv : n / 10 < n := Nat.div_lt_self (by omega) (by omega)
    rw [if_neg h10, if_neg h10, natDecimalAux_fuel (n / 10) n (by omega)]

theorem digitChar_isDigit (d : Nat) : isDigitChar (digitChar d) = true := by
  unfold digitChar
  split <;> try decide
  split <;> try decide
  split <;> try decide
  split <;> try decide
  split <;> try decide
  split <;> try decide
  split <;> try decide
  split <;> try decide
  split <;> decide

theorem isDigitChar_ne_colon {c : Char} (h : isDigitChar c = true) : c ≠ ':' := by
  intro hEq
  rw [hEq] at h
  exact absurd h (by decide)

theorem isDigitChar_ascii {c : Char} (h : isDigitChar c = true) : c.toNat < 128 := by
  simp only [isDigitChar, Bool.and_eq_true, decide_eq_true_eq] at h
  omega

theorem digitVal_digitChar {d : Nat} (h : d < 10) : digitVal (digitChar d) = d := by
  interval_cases d <;> decide

theorem natDecimal_digits (n : Nat) : ∀ c ∈ natDecimal n, isDigitChar c = true := by
  induction n using Nat.strong_induction_on with
  | _ n ih =>
    rw [natDecimal_eq]
    split
    · intro c hc
      simp only [List.mem_singleton] at hc
      subst hc
      exact digitChar_isDigit n
    · intro c hc
      rcases List.mem_append.mp hc with h1 | h2
      · exact ih (n / 10) (Nat.div_lt_self (by omega) (by omega)) c h1
      · simp only [List.mem_singleton] at h2
        subst h2
        exact digitChar_isDigit (n % 10)

theorem natDecimal_ne_nil (n : Nat) : natDecimal n ≠ [] := by
  rw [natDecimal_eq]
  split
  · simp
  · simp

theorem intDecimal_no_colon (i : Int) : ∀ c ∈ intDecimal i, c ≠ ':' := by
  rcases i with n | m
  · exact fun c hc => isDigitChar_ne_colon (natDecimal_digits n c hc)
  · intro c hc
    simp only [intDecimal, List.mem_cons] at hc
    rcases hc with rfl | hc
    · decide
    · exact isDigitChar_ne_colon (natDecimal_digits (m + 1) c hc)

theorem parseDigits_append (l1 l2 : List Char) (acc : Nat) :
    parseDigits (l1 ++ l2) acc =
      match parseDigits l1 acc with
      | some a => parseDigits l2 a
      | none => none := by
  induction l1 generalizing acc with
  | nil => simp [parseDigits]
  | cons c cs ih =>
    simp only [List.cons_append, parseDigits]
    by_cases h : isDigitChar c = true
    · simp [h, ih]
    · simp [h]

theorem parseDigits_natDecimal (n : Nat) :
    ∀ acc : Nat, parseDigits (natDecimal n) acc =
      some (acc * 10 ^ (natDecimal n).length + n) := by
  induction n using Nat.strong_induction_on with
  | _ n ih =>
    intro acc
    rw [natDecimal_eq]
    split
    · next h =>
      simp [parseDigits, digitChar_isDigit n, digitVal_digitChar h]
    · next h =>
      rw [parseDigits_append, ih (n / 10) (Nat.div_lt_self (by omega) (by omega)) acc]
      simp only [parseDigits, digitChar_isDigit (n % 10), if_true,
        digitVal_digitChar (Nat.mod_lt n (by omega)), List.length_append,
        List.length_singleton]
      congr 1
      rw [pow_succ]
      have := Nat.div_add_mod n 10
      ring_nf
      omega

theorem pyInt_natDecimal (n : Nat) : pyInt (natDecimal n) = .ok (n : Int) := by
  rcases hnd : natDecimal n with _ | ⟨c, cs⟩
  · exact absurd hnd (natDecimal_ne_nil n)
  · have hdig : isDigitChar c = true := by
      apply natDecimal_digits n
      rw [hnd]; exact List.mem_cons_self _ _
    have hparse : parseDigits (c :: cs) 0 = some n := by
      rw [← hnd, parseDigits_natDecimal n 0]
      simp
    have hc1 : ¬(c = '-') := by
      intro hEq
      rw [hEq] at hdig
      exact absurd hdig (by decide)
    have hc2 : ¬(c = '+') := by
      intro hEq
      rw [hEq] at hdig
      exact absurd hdig (by decide)
    simp [pyInt, hc1, hc2, hparse]

theorem pyInt_intDecimal (i : Int) : pyInt (intDecimal i) = .ok i := by
  rcases i with n | m
  · exact pyInt_natDecimal n
  · rcases hnd : natDecimal (m + 1) with _ | ⟨c, cs⟩
    · exact absurd hnd (natDecimal_ne_nil (m + 1))
    · have hparse : parseDigits (c :: cs) 0 = some (m + 1) := by
        rw [← hnd, parseDigits_natDecimal (m + 1) 0]
        simp
      simp only [intDecimal, pyInt, hnd, if_pos rfl, hparse]
      norm_cast

theorem takeWhile_all_append {p : Char → Bool} (l1 : List Char) (x : Char)
    (l2 : List Char) (h1 : ∀ c ∈ l1, p c = true) (hx : p x = false) :
    (l1 ++ x :: l2).takeWhile p = l1 := by
  induction l1 with
  | nil => simp [List.takeWhile, hx]
  | cons c cs ih =>
    have hc : p c = true := h1 c (List.mem_cons_self _ _)
    simp only [List.cons_append, List.takeWhile_cons, hc, if_true]
    rw [ih (fun d hd => h1 d (List.mem_cons_of_mem _ hd))]

theorem dropWhile_all_append {p : Char → Bool} (l1 : List Char) (x : Char)
    (l2 : List Char) (h1 : ∀ c ∈ l1, p c = true) (hx : p x = false) :
    (l1 ++ x :: l2).dropWhile p = x :: l2 := by
  induction l1 with
  | nil => simp [List.dropWhile, hx]
  | cons c cs ih =>
    have hc : p c = true := h1 c (List.mem_cons_self _ _)
    simp only [List.cons_append, List.dropWhile_cons, hc, if_true]
    exact ih (fun d hd => h1 d (List.mem_cons_of_mem _ hd))

theorem rsplit1_append (a b : List Char) (hb : ∀ c ∈ b, c ≠ ':') :
    rsplit1 (a ++ ':' :: b) = [a, b] := by
  have hrev : (a ++ ':' :: b).reverse = b.reverse ++ ':' :: a.reverse := by
    simp
  have hball : ∀ c ∈ b.reverse, (fun c => decide (c ≠ ':')) c = true := by
    intro c hc
    simpa using hb c (List.mem_reverse.mp hc)
  have hcolon : (fun c => decide (c ≠ ':')) ':' = false := by simp
  unfold rsplit1
  rw [hrev, List.span_eq_take_drop,
    takeWhile_all_append _ _ _ hball hcolon,
    dropWhile_all_append _ _ _ hball hcolon]
  simp

theorem splitOnColon_colon_free (a : List Char) (ha : ∀ c ∈ a, c ≠ ':') :
    splitOnColon a = [a] := by
  induction a with
  | nil => rfl
  | cons c cs ih =>
    have hc : ¬(c = ':') := ha c (List.mem_cons_self _ _)
    rw [splitOnColon, if_neg hc, ih (fun d hd => ha d (List.mem_cons_of_mem _ hd))]

theorem splitOnColon_append (a r : List Char) (ha : ∀ c ∈ a, c ≠ ':') :
    splitOnColon (a ++ ':' :: r) = a :: splitOnColon r := by
  induction a with
  | nil => simp [splitOnColon]
  | cons c cs ih =>
    have hc : ¬(c = ':') := ha c (List.mem_cons_self _ _)
    rw [List.cons_append, splitOnColon, if_neg hc,
      ih (fun d hd => ha d (List.mem_cons_of_mem _ hd))]

theorem splitOnColon_upload_message (asset_id org_id dataset_id : PyStr)
    (byte_size expiry_ts : Int)
    (ha : ∀ c ∈ asset_id, c ≠ ':') (ho : ∀ c ∈ org_id, c ≠ ':')
    (hd : ∀ c ∈ dataset_id, c ≠ ':') :
    splitOnColon (upload_token_message asset_id org_id dataset_id byte_size expiry_ts)
      = [asset_id, org_id, dataset_id, intDecimal byte_size, intDecimal expiry_ts] := by
  unfold upload_token_message
  simp only [List.append_assoc, List.cons_append]
  rw [splitOnColon_append _ _ ha]
  rw [splitOnColon_append _ _ ho]
  rw [splitOnColon_append _ _ hd]
  rw [splitOnColon_append _ _ (intDecimal_no_colon byte_size)]
  rw [splitOnColon_colon_free _ (intDecimal_no_colon expiry_ts)]

theorem compare_digest_self {a : PyStr} (ha : isAsciiStr a = true) :
    compare_digest a a = .ok true := by
  simp [compare_digest, ha]

/-- C3: verification of an honestly minted upload token succeeds exactly
when every bound field matches and the clock has not passed the expiry. -/
theorem C3_upload_token_binding
    (mac : Mac) (secret_key : PyStr) (ttl mint_now now : Int)
    (asset_id org_id dataset_id : PyStr) (byte_size : Int)
    (asset_id2 org_id2 dataset_id2 : PyStr) (byte_size2 : Int)
    (hm : MacHexLike mac secret_key)
    (ha : ∀ c ∈ asset_id, c ≠ ':') (ho : ∀ c ∈ org_id, c ≠ ':')
    (hd : ∀ c ∈ dataset_id, c ≠ ':') :
    verify_upload_token mac secret_key now
        (create_upload_token mac secret_key ttl mint_now asset_id org_id
          dataset_id byte_size)
        asset_id2 org_id2 dataset_id2 byte_size2 = .ok true ↔
      (asset_id2 = asset_id ∧ org_id2 = org_id ∧ dataset_id2 = dataset_id ∧
        byte_size2 = byte_size ∧ now ≤ mint_now + ttl) := by
  obtain ⟨htagcf, htagascii⟩ :=
    hm (upload_token_message asset_id org_id dataset_id byte_size (mint_now + ttl))
  have htok : create_upload_token mac secret_key ttl mint_now asset_id org_id
      dataset_id byte_size =
      upload_token_message asset_id org_id dataset_id byte_size (mint_now + ttl) ++
        ':' :: mac secret_key
          (upload_token_message asset_id org_id dataset_id byte_size (mint_now + ttl)) := rfl
  rw [verify_upload_token, verify_upload_token_checks, htok,
    rsplit1_append _ _ htagcf]
  simp only [vt_signed, compare_digest_self htagascii,
    splitOnColon_upload_message _ _ _ _ _ ha ho hd, vt_fields,
    pyInt_intDecimal, Bool.not_true, Bool.false_eq_true, if_false]
  by_cases h0 : asset_id != asset_id2 || org_id != org_id2 || dataset_id != dataset_id2
  · rw [if_pos h0]
    simp only [bne_iff_ne, ne_eq, Bool.or_eq_true] at h0
    simp only [pyCatchVT]
    constructor
    · intro hcontra
      exact absurd hcontra (by simp)
    · rintro ⟨rfl, rfl, rfl, -, -⟩
      rcases h0 with (h | h) | h <;> exact absurd rfl h
  · rw [if_neg h0]
    simp only [bne_iff_ne, ne_eq, Bool.or_eq_true, not_or, not_not] at h0
    obtain ⟨⟨rfl, rfl⟩, rfl⟩ := h0
    by_cases hbs : byte_size = byte_size2
    · rw [if_neg (by omega)]
      by_cases hexp : now > mint_now + ttl
      · rw [if_pos hexp]
        simp only [pyCatchVT]
        constructor
        · intro hcontra
          exact absurd hcontra (by simp)
        · rintro ⟨-, -, -, -, hle⟩
          omega
      · rw [if_neg hexp]
        simp only [pyCatchVT]
        constructor
        · intro _
          exact ⟨by trivial, by trivial, by trivial, hbs.symm, by omega⟩
        · intro _
          first
          | rfl
          | trivial
    · rw [if_pos (by omega)]
      simp only [pyCatchVT]
      constructor
      · intro hcontra
        exact absurd hcontra (by simp)
      · rintro ⟨-, -, -, hbs2, -⟩
        exact absurd hbs2.symm hbs

theorem C3_upload_token_binding_witness :
    verify_upload_token (fun _ _ => ['t', 'g']) [] 50
        (create_upload_token (fun _ _ => ['t', 'g']) [] 100 0 ['a'] ['o'] ['d'] 12)
        ['a'] ['o'] ['d'] 12 = .ok true ∧
      verify_upload_token (fun _ _ => ['t', 'g']) [] 50
        (create_upload_token (fun _ _ => ['t', 'g']) [] 100 0 ['a'] ['o'] ['d'] 12)
        ['b'] ['o'] ['d'] 12 ≠ .ok true := by
  have hm : MacHexLike (fun _ _ => ['t', 'g']) [] := by
    intro m
    constructor
    · show ∀ c ∈ ['t', 'g'], c ≠ ':'
      decide
    · show isAsciiStr ['t', 'g'] = true
      decide
  constructor
  · exact (C3_upload_token_binding (fun _ _ => ['t', 'g']) [] 100 0 50
      ['a'] ['o'] ['d'] 12 ['a'] ['o'] ['d'] 12 hm (by decide) (by decide)
      (by decide)).mpr ⟨rfl, rfl, rfl, rfl, by omega⟩
  · intro hcontra
    have := (C3_upload_token_binding (fun _ _ => ['t', 'g']) [] 100 0 50
      ['a'] ['o'] ['d'] 12 ['b'] ['o'] ['d'] 12 hm (by decide) (by decide)
      (by decide)).mp hcontra
    exact absurd this.1 (by decide)

theorem pyInt_error_kind {s : PyStr} {e : PyExc} (h : pyInt s = .error e) :
    e = .valueError := by
  unfold pyInt at h
  repeat' split at h
  all_goals simp_all

theorem compare_digest_error_kind {a b : PyStr} {e : PyExc}
    (h : compare_digest a b = .error e) : e = .typeError := by
  unfold compare_digest at h
  split at h <;> simp_all

theorem vt_fields_no_crash (now : Int) (asset_id org_id dataset_id : PyStr)
    (byte_size : Int) (comp : List PyStr) :
    ∃ b, pyCatchVT (vt_fields now asset_id org_id dataset_id byte_size comp)
      = .ok b := by
  unfold vt_fields
  split
  · split
    · exact ⟨false, rfl⟩
    · split
      · next e3 heq3 =>
        refine ⟨false, ?_⟩
        rw [pyInt_error_kind heq3]
        rfl
      · split
        · exact ⟨false, rfl⟩
        · split
          · next e4 heq4 =>
            refine ⟨false, ?_⟩
            rw [pyInt_error_kind heq4]
            rfl
          · split
            · exact ⟨false, rfl⟩
            · exact ⟨true, rfl⟩
  · exact ⟨false, rfl⟩

theorem vt_signed_no_crash (mac : Mac) (secret_key : PyStr) (now : Int)
    (asset_id org_id dataset_id : PyStr) (byte_size : Int)
    (parts : List PyStr) :
    ∃ b, pyCatchVT (vt_signed mac secret_key now asset_id org_id dataset_id
      byte_size parts) = .ok b := by
  unfold vt_signed
  split
  · split
    · next e heq =>
      refine ⟨false, ?_⟩
      rw [compare_digest_error_kind heq]
      rfl
    · split
      · exact ⟨false, rfl⟩
      · exact vt_fields_no_crash _ _ _ _ _ _
  · exact ⟨false, rfl⟩

theorem vs_fields_no_crash (ttl now : Int) (asset_id org_id : PyStr)
    (mparts : List PyStr) :
    ∃ b, pyCatchVT (vs_fields ttl now asset_id org_id mparts) = .ok b := by
  unfold vs_fields
  split
  · split
    · exact ⟨false, rfl⟩
    · split
      · next e3 heq3 =>
        refine ⟨false, ?_⟩
        rw [pyInt_error_kind heq3]
        rfl
      · split
        · exact ⟨false, rfl⟩
        · exact ⟨true, rfl⟩
  · exact ⟨false, rfl⟩

theorem vs_signed_no_crash (mac : Mac) (secret_key : PyStr) (ttl now : Int)
    (asset_id org_id : PyStr) (parts : List PyStr) :
    ∃ b, pyCatchVT (vs_signed mac secret_key ttl now asset_id org_id parts)
      = .ok b := by
  unfold vs_signed
  split
  · split
    · next e heq =>
      refine ⟨false, ?_⟩
      rw [compare_digest_error_kind heq]
      rfl
    · split
      · exact ⟨false, rfl⟩
      · exact vs_fields_no_crash _ _ _ _ _
  · exact ⟨false, rfl⟩

/-- C10: both token verifiers are total on arbitrary token strings — for
every input (malformed field counts, non-numeric numerics, bad
signatures, arbitrary `mac`) they return a boolean, never an uncaught
exception. -/
theorem C10_token_verification_total (mac : Mac) (secret_key : PyStr)
    (ttl now : Int) (token asset_id org_id dataset_id : PyStr)
    (byte_size : Int) (asset_id2 org_id2 : PyStr) :
    (∃ b, verify_upload_token mac secret_key now token asset_id org_id
      dataset_id byte_size = .ok b) ∧
    (∃ b, verify_asset_stream_token mac secret_key ttl now token asset_id2
      org_id2 = .ok b) := by
  constructor
  · exact vt_signed_no_crash mac secret_key now asset_id org_id dataset_id
      byte_size (rsplit1 token)
  · exact vs_signed_no_crash mac secret_key ttl now asset_id2 org_id2
      (rsplit1 token)

/-! ## Non-enumeration (C1) -/

/-- C1: in all three failure cases — no dataset with the id, a dataset in
another org, or a viewer without a `DatasetAccess` row — the dataset gate
raises exactly 404 `"Not found"`, and the asset and item gates (which
resolve through it) raise the identical error. -/
theorem C1_non_enumeration (db : DB) (user : UserRow) (did : String)
    (hfail :
      (∀ d ∈ db.datasets, d.id ≠ did) ∨
      (∀ d ∈ db.datasets, d.id = did → d.org_id ≠ user.org_id) ∨
      (user.role = "viewer" ∧ ∀ a ∈ db.dataset_access,
        ¬(a.dataset_id = did ∧ a.user_id = user.id ∧ a.org_id = user.org_id))) :
    get_dataset_for_user db user did = .error ⟨404, "Not found"⟩ ∧
    (∀ aid, (∀ a ∈ db.assets, a.id = aid → a.org_id = user.org_id →
        a.dataset_id = did) →
      get_asset_for_user db user aid = .error ⟨404, "Not found"⟩) ∧
    (∀ iid, (∀ it ∈ db.items, it.id = iid → it.org_id = user.org_id →
        it.dataset_id = did) →
      get_item_for_user db user iid = .error ⟨404, "Not found"⟩) := by
  have hds : get_dataset_for_user db user did = .error ⟨404, "Not found"⟩ := by
    unfold get_dataset_for_user
    cases hfind : db.datasets.find? (fun d => d.id == did && d.org_id == user.org_id) with
    | none => rfl
    | some row =>
      have hmem := List.mem_of_find?_eq_some hfind
      have hpred := List.find?_some hfind
      simp only [Bool.and_eq_true, beq_iff_eq] at hpred
      obtain ⟨hid, horg⟩ := hpred
      rcases hfail with h1 | h2 | ⟨hrole, h3⟩
      · exact absurd hid (h1 row hmem)
      · exact absurd horg (h2 row hmem hid)
      · have hrole2 : (user.role == "admin" || user.role == "publisher") = false := by
          rw [hrole]
          rfl
        have haccess : db.dataset_access.find? (fun a =>
            a.dataset_id == did && a.user_id == user.id &&
              a.org_id == user.org_id) = none := by
          rw [List.find?_eq_none]
          intro a ha
          have hna := h3 a ha
          simp only [Bool.and_eq_true, beq_iff_eq]
          tauto
        rw [hrole2, haccess]
        rfl
  refine ⟨hds, ?_, ?_⟩
  · intro aid hall
    unfold get_asset_for_user
    cases hfind : db.assets.find? (fun a => a.id == aid && a.org_id == user.org_id) with
    | none => rfl
    | some row =>
      have hmem := List.mem_of_find?_eq_some hfind
      have hpred := List.find?_some hfind
      simp only [Bool.and_eq_true, beq_iff_eq] at hpred
      have hrow : row.dataset_id = did := hall row hmem hpred.1 hpred.2
      show (get_dataset_for_user db user row.dataset_id >>= fun _ => pure row)
        = .error ⟨404, "Not found"⟩
      rw [hrow, hds]
      rfl
  · intro iid hall
    unfold get_item_for_user
    cases hfind : db.items.find? (fun i => i.id == iid && i.org_id == user.org_id) with
    | none => rfl
    | some row =>
      have hmem := List.mem_of_find?_eq_some hfind
      have hpred := List.find?_some hfind
      simp only [Bool.and_eq_true, beq_iff_eq] at hpred
      have hrow : row.dataset_id = did := hall row hmem hpred.1 hpred.2
      show (get_dataset_for_user db user row.dataset_id >>= fun _ => pure row)
        = .error ⟨404, "Not found"⟩
      rw [hrow, hds]
      rfl

theorem C1_non_enumeration_witness :
    get_dataset_for_user
        { orgs := ["o1", "o2"], users := [], datasets := [⟨"d1", "o2", "draft", none⟩],
          dataset_access := [], pending_shares := [],
          assets := [⟨"a1", "o1", "d1", none, "image", "k1", "image/png", 5⟩],
          items := [], anns := [] }
        ⟨"u1", "o1", "v@x.com", "viewer", true⟩ "d1" = .error ⟨404, "Not found"⟩ ∧
      get_asset_for_user
        { orgs := ["o1", "o2"], users := [], datasets := [⟨"d1", "o2", "draft", none⟩],
          dataset_access := [], pending_shares := [],
          assets := [⟨"a1", "o1", "d1", none, "image", "k1", "image/png", 5⟩],
          items := [], anns := [] }
        ⟨"u1", "o1", "v@x.com", "viewer", true⟩ "a1" = .error ⟨404, "Not found"⟩ := by
  have h := C1_non_enumeration
    { orgs := ["o1", "o2"], users := [], datasets := [⟨"d1", "o2", "draft", none⟩],
      dataset_access := [], pending_shares := [],
      assets := [⟨"a1", "o1", "d1", none, "image", "k1", "image/png", 5⟩],
      items := [], anns := [] }
    ⟨"u1", "o1", "v@x.com", "viewer", true⟩ "d1"
    (Or.inr (Or.inl (by decide)))
  exact ⟨h.1, h.2.1 "a1" (by decide)⟩

/-! ## Pending-share conversion on signup (C7) -/

/-- C7 counterexample: the email `x@y.com` has `N = 2` pending shares (in
two different orgs), but signup converts only the one in the resolved org:
1 `DatasetAccess` row is created and 1 `PendingDatasetShare` row remains,
refuting "exactly N DatasetAccess rows and zero remaining pending rows". -/
theorem C7_pending_share_conversion_counterexample :
    (c7db.pending_shares.filter (fun p => p.email == "x@y.com")).length = 2 ∧
    (signup c7db none "u1" "x@y.com").map (fun r =>
        ((r.1.dataset_access.filter (fun a => a.user_id == "u1")).length,
         (r.1.pending_shares.filter (fun p => p.email == "x@y.com")).length))
      = .ok (1, 1) ∧
    ¬((signup c7db none "u1" "x@y.com").map (fun r =>
        ((r.1.dataset_access.filter (fun a => a.user_id == "u1")).length,
         (r.1.pending_shares.filter (fun p => p.email == "x@y.com")).length))
      = .ok (2, 0)) := by
  refine ⟨rfl, rfl, ?_⟩
  intro hcontra
  rw [show (signup c7db none "u1" "x@y.com").map (fun r =>
      ((r.1.dataset_access.filter (fun a => a.user_id == "u1")).length,
       (r.1.pending_shares.filter (fun p => p.email == "x@y.com")).length))
      = .ok (1, 1) from rfl] at hcontra
  simp only [Except.ok.injEq, Prod.mk.injEq] at hcontra
  exact absurd hcontra.1 (by decide)

/-- C7 amended: signup converts exactly the pending shares of the resolved
org: when every pending share for the email lies in the resolved org
`org0`, the new user receives one `DatasetAccess` row per pending share
and zero pending rows remain for that email. -/
theorem C7_pending_share_conversion_amended
    (db : DB) (default_org : Option String) (uid email org0 : String)
    (hnew : db.users.find? (fun u => u.email == email) = none)
    (hres : resolve_signup_org db default_org email = .ok org0)
    (horg : db.orgs.contains org0 = true)
    (hfresh : ∀ a ∈ db.dataset_access, a.user_id ≠ uid)
    (hsame : ∀ p ∈ db.pending_shares, p.email = email → p.org_id = org0) :
    ∃ db2 u, signup db default_org uid email = .ok (db2, u) ∧
      (db2.dataset_access.filter (fun a => a.user_id == uid)).length =
        (db.pending_shares.filter (fun p => p.email == email)).length ∧
      (db2.pending_shares.filter (fun p => p.email == email)).length = 0 := by
  simp only [signup, hnew, hres, horg, if_true]
  refine ⟨_, _, rfl, ?_, ?_⟩
  · rw [List.filter_append]
    have h1 : db.dataset_access.filter (fun a => a.user_id == uid) = [] :=
      List.filter_eq_nil_iff.mpr (fun a ha => by
        simpa using hfresh a ha)
    have h2 : ((db.pending_shares.filter (fun p =>
        p.org_id == org0 && p.email == email)).map (fun p =>
          ({ org_id := p.org_id, dataset_id := p.dataset_id, user_id := uid,
             access_role := p.access_role,
             created_by_user_id := p.created_by_user_id } : DatasetAccessRow))).filter
        (fun a => a.user_id == uid) =
        (db.pending_shares.filter (fun p =>
          p.org_id == org0 && p.email == email)).map (fun p =>
          ({ org_id := p.org_id, dataset_id := p.dataset_id, user_id := uid,
             access_role := p.access_role,
             created_by_user_id := p.created_by_user_id } : DatasetAccessRow)) :=
      List.filter_eq_self.mpr (fun a ha => by
        obtain ⟨p, -, rfl⟩ := List.mem_map.mp ha
        simp)
    rw [h1, h2, List.nil_append, List.length_map]
    congr 1
    refine List.filter_congr (fun p hp => ?_)
    by_cases he : p.email = email
    · have ho := hsame p hp he
      simp [he, ho]
    · simp [he]
  · rw [List.length_eq_zero, List.filter_eq_nil_iff]
    intro p hp
    obtain ⟨hpl, hr⟩ := List.mem_filter.mp hp
    intro hq
    have he : p.email = email := by simpa using hq
    have ho := hsame p hpl he
    simp [he, ho] at hr

theorem C7_pending_share_conversion_amended_witness :
    ∃ db2 u,
      signup
        { orgs := ["o1"], users := [], datasets := [], dataset_access := [],
          pending_shares :=
            [⟨"o1", "d1", "x@y.com", "viewer", "u9"⟩,
             ⟨"o1", "d2", "x@y.com", "editor", "u9"⟩],
          assets := [], items := [], anns := [] }
        none "u1" "x@y.com" = .ok (db2, u) ∧
      (db2.dataset_access.filter (fun a => a.user_id == "u1")).length = 2 ∧
      (db2.pending_shares.filter (fun p => p.email == "x@y.com")).length = 0 := by
  obtain ⟨db2, u, h1, h2, h3⟩ := C7_pending_share_conversion_amended
    { orgs := ["o1"], users := [], datasets := [], dataset_access := [],
      pending_shares :=
        [⟨"o1", "d1", "x@y.com", "viewer", "u9"⟩,
         ⟨"o1", "d2", "x@y.com", "editor", "u9"⟩],
      assets := [], items := [], anns := [] }
    none "u1" "x@y.com" "o1" rfl rfl (by decide) (by decide) (by decide)
  exact ⟨db2, u, h1, by rw [h2]; rfl, h3⟩

/-! ## Idempotent dataset sharing (C8) -/

theorem find?_append_none {α : Type} {l1 l2 : List α} {p : α → Bool}
    (h : l1.find? p = none) : (l1 ++ l2).find? p = l2.find? p := by
  induction l1 with
  | nil => rfl
  | cons a l ih =>
    cases hpa : p a with
    | true =>
      rw [List.find?_cons_of_pos _ hpa] at h
      exact absurd h (by simp)
    | false =>
      rw [List.find?_cons_of_neg _ (by simp [hpa])] at h
      rw [List.cons_append, List.find?_cons_of_neg _ (by simp [hpa])]
      exact ih h

theorem get_dataset_for_user_eq_of_role (db db' : DB) (user : UserRow)
    (did : String) (hds : db'.datasets = db.datasets)
    (hrole : (user.role == "admin" || user.role == "publisher") = true) :
    get_dataset_for_user db' user did = get_dataset_for_user db user did := by
  unfold get_dataset_for_user
  rw [hds, hrole]
  cases db.datasets.find? (fun d => d.id == did && d.org_id == user.org_id) with
  | none => rfl
  | some row => rfl

/-- C8: starting from a database with no ACL or pending row for
`(dataset_id, email)`, a successful `add_dataset_share` leaves exactly one
row for the pair — a `DatasetAccess` row when a matching active user
exists in the org, otherwise a `PendingDatasetShare` row — and invoking it
again returns the database unchanged. -/
theorem C8_idempotent_share
    (db : DB) (user : UserRow) (did email role : String) (db1 : DB)
    (h1 : add_dataset_share db user did email role = .ok db1)
    (hA : ∀ a ∈ db.dataset_access, a.dataset_id = did →
      ∀ u ∈ db.users, u.id = a.user_id → u.email ≠ email)
    (hP : ∀ p ∈ db.pending_shares, ¬(p.dataset_id = did ∧ p.email = email)) :
    add_dataset_share db1 user did email role = .ok db1 ∧
    ((db.users.find? (fun u => u.email == email &&
        u.org_id == user.org_id && u.is_active)).isSome = true →
      share_access_count db1 did email = 1 ∧
        share_pending_count db1 did email = 0) ∧
    ((db.users.find? (fun u => u.email == email &&
        u.org_id == user.org_id && u.is_active)).isSome = false →
      share_access_count db1 did email = 0 ∧
        share_pending_count db1 did email = 1) := by
  unfold add_dataset_share at h1
  split at h1
  · exact absurd h1 (by simp)
  · next hrole =>
    have hroleb : (user.role == "admin" || user.role == "publisher") = true := by
      revert hrole
      cases user.role == "admin" || user.role == "publisher" <;> simp
    split at h1
    · exact absurd h1 (by simp)
    · next ds hds =>
      split at h1
      · next target htarget =>
        have htmem := List.mem_of_find?_eq_some htarget
        have htpred := List.find?_some htarget
        simp only [Bool.and_eq_true, beq_iff_eq] at htpred
        split at h1
        · next a0 hfound =>
          exfalso
          have hmem := List.mem_of_find?_eq_some hfound
          have hpred := List.find?_some hfound
          simp only [Bool.and_eq_true, beq_iff_eq] at hpred
          exact (hA a0 hmem hpred.1 target htmem hpred.2.symm) htpred.1.1
        · next hnofound =>
          have hdb1 : { db with dataset_access := db.dataset_access ++
              [mkAccessRow user.org_id did target.id
                (normalize_access_role role) user.id] } = db1 := by
            injection h1 with h1'
          have hu : db1.users = db.users := by rw [← hdb1]
          have hd : db1.datasets = db.datasets := by rw [← hdb1]
          have hp2 : db1.pending_shares = db.pending_shares := by rw [← hdb1]
          have hacc : db1.dataset_access = db.dataset_access ++
              [mkAccessRow user.org_id did target.id
                (normalize_access_role role) user.id] := by
            rw [← hdb1]
          refine ⟨?_, ?_, ?_⟩
          · unfold add_dataset_share
            rw [if_neg hrole]
            have hgd1 : get_dataset_for_user db1 user did = .ok ds :=
              (get_dataset_for_user_eq_of_role db db1 user did hd hroleb).trans hds
            have hfind2 : db1.users.find? (fun u => u.email == email &&
                u.org_id == user.org_id && u.is_active) = some target := by
              rw [hu]
              exact htarget
            have hfound2 : db1.dataset_access.find? (fun a =>
                a.dataset_id == did && a.user_id == target.id) =
                some (mkAccessRow user.org_id did target.id
                  (normalize_access_role role) user.id) := by
              rw [hacc, find?_append_none hnofound]
              simp [mkAccessRow]
            simp only [hgd1, hfind2, hfound2]
          · intro _
            constructor
            · unfold share_access_count
              rw [hacc, hu, List.filter_append]
              have hold : db.dataset_access.filter (fun a =>
                  a.dataset_id == did && db.users.any (fun u =>
                    u.id == a.user_id && u.email == email)) = [] := by
                rw [List.filter_eq_nil_iff]
                intro a ha hcontra
                simp only [Bool.and_eq_true, beq_iff_eq, List.any_eq_true] at hcontra
                obtain ⟨hdid, u, hmem, huid, huemail⟩ := hcontra
                exact (hA a ha hdid u hmem huid) huemail
              have hany : db.users.any (fun u =>
                  u.id == target.id && u.email == email) = true :=
                List.any_of_mem htmem (by simp [htpred.1.1])
              rw [hold]
              simp [mkAccessRow, hany]
            · unfold share_pending_count
              rw [hp2, List.length_eq_zero, List.filter_eq_nil_iff]
              intro p hp hcontra
              simp only [Bool.and_eq_true, beq_iff_eq] at hcontra
              exact hP p hp hcontra
          · intro hcontra
            rw [htarget] at hcontra
            simp at hcontra
      · next hnotarget =>
        split at h1
        · next p0 hpfound =>
          exfalso
          have hmem := List.mem_of_find?_eq_some hpfound
          have hpred := List.find?_some hpfound
          simp only [Bool.and_eq_true, beq_iff_eq] at hpred
          exact hP p0 hmem hpred
        · next hnopending =>
          have hdb1 : { db with pending_shares := db.pending_shares ++
              [mkPendingRow user.org_id did email
                (normalize_access_role role) user.id] } = db1 := by
            injection h1 with h1'
          have hu : db1.users = db.users := by rw [← hdb1]
          have hd : db1.datasets = db.datasets := by rw [← hdb1]
          have hacc : db1.dataset_access = db.dataset_access := by rw [← hdb1]
          have hp2 : db1.pending_shares = db.pending_shares ++
              [mkPendingRow user.org_id did email
                (normalize_access_role role) user.id] := by
            rw [← hdb1]
          refine ⟨?_, ?_, ?_⟩
          · unfold add_dataset_share
            rw [if_neg hrole]
            have hgd1 : get_dataset_for_user db1 user did = .ok ds :=
              (get_dataset_for_user_eq_of_role db db1 user did hd hroleb).trans hds
            have hfind2 : db1.users.find? (fun u => u.email == email &&
                u.org_id == user.org_id && u.is_active) = none := by
              rw [hu]
              exact hnotarget
            have hpfound2 : db1.pending_shares.find? (fun p =>
                p.dataset_id == did && p.email == email) =
                some (mkPendingRow user.org_id did email
                  (normalize_access_role role) user.id) := by
              rw [hp2, find?_append_none hnopending]
              simp [mkPendingRow]
            simp only [hgd1, hfind2, hpfound2]
          · intro hcontra
            rw [hnotarget] at hcontra
            simp at hcontra
          · intro _
            constructor
            · unfold share_access_count
              rw [hacc, hu, List.length_eq_zero, List.filter_eq_nil_iff]
              intro a ha hcontra
              simp only [Bool.and_eq_true, beq_iff_eq, List.any_eq_true] at hcontra
              obtain ⟨hdid, u, hmem, huid, huemail⟩ := hcontra
              exact (hA a ha hdid u hmem huid) huemail
            · unfold share_pending_count
              rw [hp2, List.filter_append]
              have hold : db.pending_shares.filter (fun p =>
                  p.dataset_id == did && p.email == email) = [] := by
                rw [List.filter_eq_nil_iff]
                intro p hp hcontra
                simp only [Bool.and_eq_true, beq_iff_eq] at hcontra
                exact hP p hp hcontra
              rw [hold]
              simp [mkPendingRow]

theorem C8_idempotent_share_witness :
    add_dataset_share c8db c8user "d1" "e@x.com" "viewer" = .ok c8db1 ∧
    add_dataset_share c8db1 c8user "d1" "e@x.com" "viewer" = .ok c8db1 ∧
    share_access_count c8db1 "d1" "e@x.com" = 1 ∧
    share_pending_count c8db1 "d1" "e@x.com" = 0 := by
  have h1 : add_dataset_share c8db c8user "d1" "e@x.com" "viewer" = .ok c8db1 := rfl
  have h := C8_idempotent_share c8db c8user "d1" "e@x.com" "viewer" c8db1 h1
    (by decide) (by decide)
  have hcounts := h.2.1 rfl
  exact ⟨h1, h.1, hcounts.1, hcounts.2⟩

/-! ## Ranked-gallery payload validation (C9) -/

theorem underField_nil {seg : String} {errs : List PErr} :
    underField seg errs = [] ↔ errs = [] := by
  simp [underField]

theorem reqFieldErrs_nil {check : JVal → List PErr} {o : Option JVal}
    (h : reqFieldErrs check o = []) : ∃ v, o = some v ∧ check v = [] := by
  cases o with
  | none => simp [reqFieldErrs] at h
  | some v => exact ⟨v, rfl, h⟩

theorem strFieldErrs_nil {v : JVal} (h : strFieldErrs v = []) :
    ∃ s, v = JVal.jstr s := by
  cases v <;> simp_all [strFieldErrs]

theorem uuidFieldErrs_nil {v : JVal} (h : uuidFieldErrs v = []) :
    ∃ s, v = JVal.jstr s ∧ isUuidStr s = true := by
  cases v <;> simp_all [uuidFieldErrs]

theorem dictFieldErrs_nil {v : JVal} (h : dictFieldErrs v = []) :
    ∃ fs, v = JVal.jobj fs := by
  cases v <;> simp_all [dictFieldErrs]

theorem extraForbidErrs_nil {allowed : List String}
    {fields : List (String × JVal)} (h : extraForbidErrs allowed fields = [])
    {f : String × JVal} (hf : f ∈ fields) : f.1 ∈ allowed := by
  unfold extraForbidErrs at h
  rw [List.map_eq_nil, List.filter_eq_nil_iff] at h
  have := h f hf
  simp only [Bool.not_eq_true'] at this
  by_contra hmem
  rw [show allowed.contains f.1 = false by
    simpa using fun hc => hmem (by simpa using hc)] at this
  simp at this

theorem listFieldErrs_nil {check : JVal → List PErr} {minLen : Nat} {v : JVal}
    (h : listFieldErrs check minLen v = []) :
    ∃ xs, v = JVal.jarr xs ∧ ¬(xs.length < minLen) ∧
      ∀ x ∈ xs, check x = [] := by
  cases v with
  | jarr xs =>
    refine ⟨xs, rfl, ?_, ?_⟩
    · unfold listFieldErrs at h
      rw [List.append_eq_nil] at h
      by_contra hlen
      rw [if_pos hlen] at h
      simp at h
    · intro x hx
      unfold listFieldErrs at h
      rw [List.append_eq_nil] at h
      have hflat := h.2
      rw [List.bind_eq_nil] at hflat
      obtain ⟨i, hi⟩ := List.mem_iff_get?.mp hx
      have := hflat (i, x) (List.mk_mem_enum_iff_get?.mpr hi)
      exact underField_nil.mp this
  | jnull => simp [listFieldErrs] at h
  | jbool b => simp [listFieldErrs] at h
  | jint n => simp [listFieldErrs] at h
  | jfloat => simp [listFieldErrs] at h
  | jstr s => simp [listFieldErrs] at h
  | jobj fs => simp [listFieldErrs] at h

theorem dictOfFieldErrs_nil {check : JVal → List PErr} {v : JVal}
    (h : dictOfFieldErrs check v = []) :
    ∃ fs, v = JVal.jobj fs ∧ ∀ kv ∈ fs, check kv.2 = [] := by
  cases v with
  | jobj fs =>
    refine ⟨fs, rfl, ?_⟩
    intro kv hkv
    unfold dictOfFieldErrs at h
    rw [List.bind_eq_nil] at h
    exact underField_nil.mp (h kv hkv)
  | jnull => simp [dictOfFieldErrs] at h
  | jbool b => simp [dictOfFieldErrs] at h
  | jint n => simp [dictOfFieldErrs] at h
  | jfloat => simp [dictOfFieldErrs] at h
  | jstr s => simp [dictOfFieldErrs] at h
  | jarr xs => simp [dictOfFieldErrs] at h

theorem validateFullRankData_nil {df : List (String × JVal)}
    (h : validateFullRankData (.jobj df) = []) :
    (∃ ov, jLookup df "order" = some (.jarr ov) ∧
      ∀ x ∈ ov, ∃ s, x = JVal.jstr s) ∧
    (∃ av, jLookup df "annotator_count" = some av ∧ intFieldErrs av = []) ∧
    (∀ f ∈ df, f.1 = "order" ∨ f.1 = "annotator_count") := by
  unfold validateFullRankData at h
  rw [List.append_eq_nil, List.append_eq_nil] at h
  obtain ⟨⟨h1, h2⟩, h3⟩ := h
  refine ⟨?_, ?_, ?_⟩
  · obtain ⟨v, hv, hcheck⟩ := reqFieldErrs_nil (underField_nil.mp h1)
    obtain ⟨ov, rfl, -, helts⟩ := listFieldErrs_nil hcheck
    exact ⟨ov, hv, fun x hx => strFieldErrs_nil (helts x hx)⟩
  · obtain ⟨v, hv, hcheck⟩ := reqFieldErrs_nil (underField_nil.mp h2)
    exact ⟨v, hv, hcheck⟩
  · intro f hf
    have := extraForbidErrs_nil h3 hf
    simpa using this

theorem validateScoresData_nil {df : List (String × JVal)}
    (h : validateScoresData (.jobj df) = []) :
    (∃ sv, jLookup df "scores" = some (.jobj sv) ∧
      ∀ kv ∈ sv, floatFieldErrs kv.2 = []) ∧
    (∃ sc, jLookup df "scale" = some (.jstr sc)) ∧
    (∀ f ∈ df, f.1 = "scores" ∨ f.1 = "scale") := by
  unfold validateScoresData at h
  rw [List.append_eq_nil, List.append_eq_nil] at h
  obtain ⟨⟨h1, h2⟩, h3⟩ := h
  refine ⟨?_, ?_, ?_⟩
  · obtain ⟨v, hv, hcheck⟩ := reqFieldErrs_nil (underField_nil.mp h1)
    obtain ⟨sv, rfl, hall⟩ := dictOfFieldErrs_nil hcheck
    exact ⟨sv, hv, hall⟩
  · obtain ⟨v, hv, hcheck⟩ := reqFieldErrs_nil (underField_nil.mp h2)
    obtain ⟨sc, rfl⟩ := strFieldErrs_nil hcheck
    exact ⟨sc, hv⟩
  · intro f hf
    have := extraForbidErrs_nil h3 hf
    simpa using this

theorem validateRankingsPayload_nil {r : JVal}
    (h : validateRankingsPayload r = []) :
    ∃ rf, r = JVal.jobj rf ∧
      (∃ m, jLookup rf "method" = some (.jstr m) ∧
        (m = "pairwise" ∨ m = "full_rank" ∨ m = "scores")) ∧
      (∃ df, jLookup rf "data" = some (.jobj df) ∧
        (jLookup rf "method" = some (.jstr "full_rank") →
          validateFullRankData (.jobj df) = []) ∧
        (jLookup rf "method" = some (.jstr "scores") →
          validateScoresData (.jobj df) = [])) ∧
      (∀ f ∈ rf, f.1 = "method" ∨ f.1 = "data") := by
  cases r with
  | jobj rf =>
    refine ⟨rf, rfl, ?_⟩
    simp only [validateRankingsPayload] at h
    split at h
    · next hcond =>
      rw [h] at hcond
      simp at hcond
    · next hcond =>
      simp only [Bool.not_eq_true, Bool.not_eq_false, Bool.not_eq_true', Bool.not_eq_false', List.isEmpty_iff] at hcond
      have hfe2 := hcond
      rw [List.append_eq_nil, List.append_eq_nil] at hfe2
      obtain ⟨⟨hm, hdata⟩, hextra⟩ := hfe2
      obtain ⟨mv, hmv, hmcheck⟩ := reqFieldErrs_nil (underField_nil.mp hm)
      obtain ⟨dv, hdv, hdcheck⟩ := reqFieldErrs_nil (underField_nil.mp hdata)
      obtain ⟨df, rfl⟩ := dictFieldErrs_nil hdcheck
      have hmstr : ∃ m, mv = JVal.jstr m ∧
          (m = "pairwise" ∨ m = "full_rank" ∨ m = "scores") := by
        cases mv <;> simp_all
        next s =>
          tauto
      obtain ⟨m, rfl, hmem⟩ := hmstr
      simp only [hmv, hdv] at h
      refine ⟨⟨m, hmv, hmem⟩, ⟨df, hdv, ?_, ?_⟩, ?_⟩
      · intro hfr
        rw [hmv] at hfr
        have hmfr : m = "full_rank" := by
          injection hfr with hfr2
          cases hfr2
          rfl
        subst hmfr
        rw [if_pos (by simp)] at h
        cases hval : validateFullRankData (.jobj df) with
        | nil => rfl
        | cons e es =>
          rw [hval] at h
          simp at h
      · intro hsc
        rw [hmv] at hsc
        have hmsc : m = "scores" := by
          injection hsc with hsc2
          cases hsc2
          rfl
        subst hmsc
        rw [if_neg (by simp), if_pos (by simp)] at h
        cases hval : validateScoresData (.jobj df) with
        | nil => rfl
        | cons e es =>
          rw [hval] at h
          simp at h
      · intro f hf
        have := extraForbidErrs_nil hextra hf
        simpa using this
  | jnull => simp [validateRankingsPayload] at h
  | jbool b => simp [validateRankingsPayload] at h
  | jint n => simp [validateRankingsPayload] at h
  | jfloat => simp [validateRankingsPayload] at h
  | jstr s => simp [validateRankingsPayload] at h
  | jarr xs => simp [validateRankingsPayload] at h

theorem validate_payload_gallery_nil {j : JVal}
    (h : validate_payload "image_ranked_gallery" j = .ok ()) :
    validateImageRankedGalleryPayload j = [] := by
  have hreg : validate_payload "image_ranked_gallery" j =
      (match validateImageRankedGalleryPayload j with
       | [] => Except.ok ()
       | errs => .error (.validationError errs)) := rfl
  rw [hreg] at h
  cases hval : validateImageRankedGalleryPayload j with
  | nil => rfl
  | cons e es =>
    rw [hval] at h
    simp at h

/-- C9 counterexample: the spec's scenario — `full_rank` with a
non-integer `annotator_count` — produces a single structured error whose
path is `items[0].payload.rankings` but whose `error_type` is
`"value_error"` (the nested pydantic error is swallowed as a ValueError
by the `model_validator`), not a wrong-type kind. -/
theorem C9_ranked_gallery_counterexample :
    (match validate_payload "image_ranked_gallery" c9payload with
     | .error (.validationError errs) =>
       (_validation_errors_from_pydantic errs "items[0].payload").map
         (fun e => (e.path, e.error_type))
     | _ => []) = [("items[0].payload.rankings", "value_error")] ∧
    ("value_error" : String) ≠ "wrong_type" := by
  constructor
  · rfl
  · decide

/-- C9 amended: a payload passes `image_ranked_gallery` validation only if
it has the claimed shape (≥2 UUID asset ids, recognised method, per-method
data shape, no unknown fields); and the non-integer `annotator_count`
scenario yields one error at `items[i].payload.rankings` whose
`error_type` is `"value_error"` — the wrong-type detail survives only in
the message. -/
theorem C9_ranked_gallery_validation_amended :
    (∀ j, validate_payload "image_ranked_gallery" j = .ok () →
      RankedGalleryShapeOk j) ∧
    ((match validate_payload "image_ranked_gallery" c9payload with
      | .error (.validationError errs) =>
        (_validation_errors_from_pydantic errs "items[0].payload").map
          (fun e => (e.path, e.error_type))
      | _ => []) = [("items[0].payload.rankings", "value_error")]) := by
  constructor
  · intro j h
    have hval := validate_payload_gallery_nil h
    cases j with
    | jobj fields =>
      refine ⟨fields, rfl, ?_⟩
      unfold validateImageRankedGalleryPayload at hval
      rw [List.append_eq_nil, List.append_eq_nil, List.append_eq_nil,
        List.append_eq_nil] at hval
      obtain ⟨⟨⟨⟨h1, h2⟩, h3⟩, -⟩, h5⟩ := hval
      refine ⟨?_, ?_, ?_, ?_⟩
      · obtain ⟨v, hv, hcheck⟩ := reqFieldErrs_nil (underField_nil.mp h1)
        obtain ⟨xs, rfl, hlen, helts⟩ := listFieldErrs_nil hcheck
        exact ⟨xs, hv, by omega, fun x hx => uuidFieldErrs_nil (helts x hx)⟩
      · obtain ⟨v, hv, hcheck⟩ := reqFieldErrs_nil (underField_nil.mp h2)
        obtain ⟨ps, rfl⟩ := strFieldErrs_nil hcheck
        exact ⟨ps, hv⟩
      · obtain ⟨v, hv, hcheck⟩ := reqFieldErrs_nil (underField_nil.mp h3)
        obtain ⟨rf, rfl, hmethod, ⟨df, hdf, hfro, hsco⟩, hex⟩ :=
          validateRankingsPayload_nil hcheck
        refine ⟨rf, hv, hmethod, ⟨df, hdf, ?_, ?_⟩, hex⟩
        · intro hfr
          obtain ⟨ho, ha, he⟩ := validateFullRankData_nil (hfro hfr)
          exact ⟨ho, ha, he⟩
        · intro hsc
          obtain ⟨hs, hc, he⟩ := validateScoresData_nil (hsco hsc)
          exact ⟨hs, hc, he⟩
      · intro f hf
        have := extraForbidErrs_nil h5 hf
        simpa using this
    | jnull => simp [validateImageRankedGalleryPayload] at hval
    | jbool b => simp [validateImageRankedGalleryPayload] at hval
    | jint n => simp [validateImageRankedGalleryPayload] at hval
    | jfloat => simp [validateImageRankedGalleryPayload] at hval
    | jstr s => simp [validateImageRankedGalleryPayload] at hval
    | jarr xs => simp [validateImageRankedGalleryPayload] at hval
  · rfl

theorem C9_ranked_gallery_validation_amended_witness :
    RankedGalleryShapeOk c9good ∧
    validate_payload "image_ranked_gallery" c9good = .ok () := by
  have hok : validate_payload "image_ranked_gallery" c9good = .ok () := rfl
  exact ⟨C9_ranked_gallery_validation_amended.1 c9good hok, hok⟩

/-! ## Publish error handling (C2) -/

/-- C2: a manifest containing an invalid item does **not** make publish
abort with the structured error list — the unguarded `extract_asset_ids`
sweep (ingest.py:298-300) re-raises on the invalid item before the error
list is returned, so the endpoint dies with an uncaught exception (HTTP
500); the database is untouched but the "full list of structured errors"
is never produced, contradicting the endpoint's own tests.  This theorem
evaluates the model at the failing input. -/
theorem C2_publish_crashes_instead_of_error_list :
    publish_dataset (fun _ => .error ()) true false (fun _ => "i0") 0 c4db
        c4user "d1" c2manifest
      = (c4db, .crash (.valueError "Unsupported item type: bogus_type")) ∧
    (PubOut.crash (.valueError "Unsupported item type: bogus_type") ≠
      .errList 422 [⟨"items[0]", "unsupported_type",
        "Unsupported item type 'bogus_type'"⟩]) := by
  constructor
  · rfl
  · intro hcontra
    cases hcontra

/-! ## Upload authorization (C4) -/

/-- C4 counterexample: a request with a valid admin session and an invalid
`token` query parameter is rejected with 403 by the unconditional second
token check (ingest.py:182-183); the same request with a valid token
succeeds.  So a valid session does **not** authorize the upload regardless
of token validity. -/
theorem C4_session_upload_counterexample :
    upload_asset wmac [] 0 false (fun _ _ _ => true) c4db [] (some c4user)
        "a1" ['x'] [9, 9, 9]
      = ([], .err ⟨403, "Invalid or expired token"⟩) ∧
    upload_asset wmac [] 0 false (fun _ _ _ => true) c4db [] (some c4user)
        "a1" (create_upload_token wmac [] 100 0 "a1".data "o1".data "d1".data 3)
        [9, 9, 9]
      = ([("k1", [9, 9, 9])], .ok) := by
  constructor
  · rfl
  · rfl

/-- C4 amended: upload authorization is session-based **and** token-based
when a session is present: an admin/publisher session with dataset access
still gets 403 when the upload token does not verify; with a verifying
token the upload proceeds both with and without a session (the token alone
suffices when no session is present). -/
theorem C4_upload_auth_amended
    (mac : Mac) (secret : PyStr) (now : Int)
    (scan : List Nat → String → String → Bool)
    (db : DB) (store : Store) (user : UserRow) (asset : AssetRow)
    (token : PyStr) (body : List Nat)
    (hrole : user.role = "admin" ∨ user.role = "publisher")
    (hasset : get_asset_for_user db user asset.id = .ok asset)
    (hfind : db.assets.find? (fun a => a.id == asset.id) = some asset)
    (hds : (db.datasets.find? (fun d => d.id == asset.dataset_id &&
      d.org_id == asset.org_id &&
      (d.status == "draft" || d.status == "published"))).isSome = true)
    (hunlinked : asset.item_id = none) :
    (verify_upload_token mac secret now token asset.id.data asset.org_id.data
        asset.dataset_id.data asset.byte_size = .ok false →
      upload_asset mac secret now false scan db store (some user) asset.id
          token body
        = (store, .err ⟨403, "Invalid or expired token"⟩)) ∧
    (verify_upload_token mac secret now token asset.id.data asset.org_id.data
        asset.dataset_id.data asset.byte_size = .ok true →
      (body.length : Int) = asset.byte_size →
      upload_asset mac secret now false scan db store none asset.id token body
        = (storeWrite store asset.storage_key body, .ok)) ∧
    (verify_upload_token mac secret now token asset.id.data asset.org_id.data
        asset.dataset_id.data asset.byte_size = .ok true →
      (body.length : Int) = asset.byte_size →
      upload_asset mac secret now false scan db store (some user) asset.id
          token body
        = (storeWrite store asset.storage_key body, .ok)) := by
  have hb : (user.role == "admin" || user.role == "publisher") = true := by
    rcases hrole with h | h <;> simp [h]
  obtain ⟨d, hd⟩ := Option.isSome_iff_exists.mp hds
  refine ⟨?_, ?_, ?_⟩
  · intro htok
    unfold upload_asset upload_asset_after_auth
    simp only [hb, Bool.not_true, Bool.false_eq_true, if_false, hasset, hd,
      hunlinked, htok]
  · intro htok hlen
    unfold upload_asset upload_asset_after_auth
    simp only [hfind, hd, hunlinked, htok]
    rw [if_neg (by omega), if_neg (by simp)]
  · intro htok hlen
    unfold upload_asset upload_asset_after_auth
    simp only [hb, Bool.not_true, Bool.false_eq_true, if_false, hasset, hd,
      hunlinked, htok]
    rw [if_neg (by omega), if_neg (by simp)]

theorem C4_upload_auth_amended_witness :
    upload_asset wmac [] 0 false (fun _ _ _ => true) c4db [] (some c4user)
        "a1" ['x'] [9, 9, 9]
      = ([], .err ⟨403, "Invalid or expired token"⟩) ∧
    upload_asset wmac [] 0 false (fun _ _ _ => true) c4db [] none "a1"
        (create_upload_token wmac [] 100 0 "a1".data "o1".data "d1".data 3)
        [9, 9, 9]
      = ([("k1", [9, 9, 9])], .ok) := by
  have h := C4_upload_auth_amended wmac [] 0 (fun _ _ _ => true) c4db []
    c4user c4asset ['x'] [9, 9, 9] (Or.inl rfl) rfl rfl (by decide) rfl
  have h2 := C4_upload_auth_amended wmac [] 0 (fun _ _ _ => true) c4db []
    c4user c4asset
    (create_upload_token wmac [] 100 0 "a1".data "o1".data "d1".data 3)
    [9, 9, 9] (Or.inl rfl) rfl rfl (by decide) rfl
  exact ⟨h.1 rfl, h2.2.1 rfl (by decide)⟩

/-! ## Inversion of successful publish / append -/

theorem publish_dataset_ok_inv
    (head : String → Except Unit HeadMeta) (ing rl : Bool)
    (genId : Nat → String) (now : Int) (db : DB) (user : UserRow)
    (did : String) (manifest : List MItem) (db3 : DB) (n : Nat)
    (h : publish_dataset head ing rl genId now db user did manifest
      = (db3, .ok n)) :
    ∃ refsPerItem ds,
      extract_all manifest = .ok refsPerItem ∧
      get_dataset_for_user db user did = .ok ds ∧
      ds.status = "draft" ∧
      manifest.enum.flatMap (fun ix => validate_manifest_item
        (dataset_asset_ids db user.org_id did) "" ix.1 ix.2) = [] ∧
      integrity_errors head db user.org_id did
        (dataset_asset_ids db user.org_id did) (union_refs refsPerItem) = [] ∧
      db3 = { commit_list genId user.org_id did 0 (manifest.zip refsPerItem) db
              with datasets := (commit_list genId user.org_id did 0
                (manifest.zip refsPerItem) db).datasets.map (fun d =>
                  if d.id == did && d.org_id == user.org_id then
                    { d with status := "published", published_at := some now }
                  else d) } := by
  simp only [publish_dataset] at h
  split at h
  · simp at h
  · split at h
    · simp at h
    · split at h
      · simp at h
      · split at h
        · simp at h
        · next ds hds =>
          split at h
          · simp at h
          · next hstat =>
            split at h
            · simp at h
            · split at h
              · simp at h
              · next refsPerItem hrefs =>
                split at h
                · simp at h
                · next herr =>
                  simp only [Bool.not_eq_true, Bool.not_eq_false,
                    Bool.not_eq_true', Bool.not_eq_false',
                    List.isEmpty_iff, List.append_eq_nil] at herr
                  rw [Prod.mk.injEq] at h
                  have hstat2 : ds.status = "draft" := by simpa using hstat
                  exact ⟨refsPerItem, ds, hrefs, hds, hstat2, herr.1, herr.2,
                    h.1.symm⟩

theorem append_dataset_ok_inv
    (head : String → Except Unit HeadMeta) (ing rl : Bool)
    (genId : Nat → String) (db : DB) (user : UserRow)
    (did : String) (manifest : List MItem) (db3 : DB) (n : Nat)
    (h : append_dataset head ing rl genId db user did manifest
      = (db3, .ok n)) :
    ∃ refsPerItem ds,
      extract_all manifest = .ok refsPerItem ∧
      get_dataset_for_user db user did = .ok ds ∧
      ds.status = "published" ∧
      manifest.enum.flatMap (fun ix => validate_manifest_item
        (dataset_unlinked_asset_ids db user.org_id did) " (append)" ix.1 ix.2)
        = [] ∧
      integrity_errors head db user.org_id did
        (dataset_unlinked_asset_ids db user.org_id did)
        (union_refs refsPerItem) = [] ∧
      db3 = commit_list genId user.org_id did 0 (manifest.zip refsPerItem) db := by
  simp only [append_dataset] at h
  split at h
  · simp at h
  · split at h
    · simp at h
    · split at h
      · simp at h
      · split at h
        · simp at h
        · next ds hds =>
          split at h
          · simp at h
          · next hstat =>
            split at h
            · simp at h
            · split at h
              · simp at h
              · next refsPerItem hrefs =>
                split at h
                · simp at h
                · next herr =>
                  simp only [Bool.not_eq_true, Bool.not_eq_false,
                    Bool.not_eq_true', Bool.not_eq_false',
                    List.isEmpty_iff, List.append_eq_nil] at herr
                  rw [Prod.mk.injEq] at h
                  have hstat2 : ds.status = "published" := by
                    simpa using hstat
                  exact ⟨refsPerItem, ds, hrefs, hds, hstat2, herr.1, herr.2,
                    h.1.symm⟩

theorem extract_ok_validate_ok {t : String} {j : JVal} {refs : List String}
    (h : extract_asset_ids t j = .ok refs) : validate_payload t j = .ok () := by
  unfold extract_asset_ids at h
  cases hr : registryValidator t with
  | none =>
    rw [hr] at h
    simp at h
  | some v =>
    rw [hr] at h
    cases hv : v j with
    | nil => simp only [validate_payload, hr, hv]
    | cons e es =>
      simp only [hv] at h
      simp at h

theorem extract_all_mem {manifest : List MItem} {rs : List (List String)}
    (h : extract_all manifest = .ok rs) :
    ∀ m ∈ manifest, ∀ refs, extract_asset_ids m.itype m.payload = .ok refs →
      refs ∈ rs := by
  induction manifest generalizing rs with
  | nil =>
    intro m hm
    simp at hm
  | cons m0 rest ih =>
    intro m hm refs hrefs
    rw [extract_all] at h
    cases h0 : extract_asset_ids m0.itype m0.payload with
    | error e =>
      rw [h0] at h
      simp at h
    | ok refs0 =>
      rw [h0] at h
      cases hrest : extract_all rest with
      | error e =>
        rw [hrest] at h
        simp at h
      | ok rs0 =>
        rw [hrest] at h
        injection h with h
        subst h
        rcases List.mem_cons.mp hm with rfl | hmem
        · rw [h0] at hrefs
          injection hrefs with hrefs
          subst hrefs
          exact List.mem_cons_self _ _
        · exact List.mem_cons_of_mem _ (ih hrest m hmem refs hrefs)

theorem mem_union_refs {rs : List (List String)} {refs : List String}
    {aid : String} (h1 : refs ∈ rs) (h2 : aid ∈ refs) :
    aid ∈ union_refs rs := by
  unfold union_refs
  rw [List.mem_dedup]
  exact List.mem_flatten.mpr ⟨refs, h1, h2⟩

theorem validate_manifest_item_refs {ids : List String} {note : String}
    {i : Nat} {m : MItem} {refs : List String}
    (hv : validate_manifest_item ids note i m = [])
    (hx : extract_asset_ids m.itype m.payload = .ok refs) :
    ∀ r ∈ refs, ids.contains r = true := by
  intro r hr
  have hvp := extract_ok_validate_ok hx
  unfold validate_manifest_item at hv
  split at hv
  · simp at hv
  · simp only [hvp, hx] at hv
    rw [List.append_eq_nil] at hv
    have hrefpart := hv.1
    split at hrefpart
    · next hmiss =>
      have hnil := List.isEmpty_iff.mp hmiss
      rw [List.filter_eq_nil_iff] at hnil
      have := hnil r (List.mem_dedup.mpr hr)
      simpa using this
    · simp at hrefpart

theorem commit_one_assets (org did iid : String) (m : MItem)
    (refs : List String) (db : DB) :
    (commit_one org did iid m refs db).assets =
      if refs.isEmpty then db.assets
      else db.assets.map (fun a =>
        if a.org_id == org && a.dataset_id == did && refs.contains a.id then
          { a with item_id := some iid }
        else a) := rfl

theorem commit_list_preserves_row (genId : Nat → String) (org did : String) :
    ∀ (prs : List (MItem × List String)) (idx : Nat) (db : DB) (a : AssetRow),
      a ∈ db.assets →
      (∀ pr ∈ prs, (a.org_id == org && a.dataset_id == did &&
        pr.2.contains a.id) = false) →
      a ∈ (commit_list genId org did idx prs db).assets := by
  intro prs
  induction prs with
  | nil =>
    intro idx db a ha _
    exact ha
  | cons pr rest ih =>
    intro idx db a ha hcond
    obtain ⟨m, refs⟩ := pr
    rw [commit_list]
    apply ih
    · rw [commit_one_assets]
      split
      · exact ha
      · have hcnd := hcond (m, refs) (List.mem_cons_self _ _)
        have : (fun a' => if a'.org_id == org && a'.dataset_id == did &&
            refs.contains a'.id then
              { a' with item_id := some (genId idx) } else a') a = a := by
          simp only [hcnd, Bool.false_eq_true, if_false]
        rw [← this]
        exact List.mem_map_of_mem _ ha
    · intro pr' hpr'
      exact hcond pr' (List.mem_cons_of_mem _ hpr')

theorem commit_list_assets_shape (genId : Nat → String) (org did : String) :
    ∀ (prs : List (MItem × List String)) (idx : Nat) (db : DB)
      (a' : AssetRow), a' ∈ (commit_list genId org did idx prs db).assets →
      ∃ b ∈ db.assets, a'.id = b.id ∧
        (a' = b ∨ ∃ iid pr, pr ∈ prs ∧
          (b.org_id == org && b.dataset_id == did &&
            pr.2.contains b.id) = true ∧
          a' = { b with item_id := some iid }) := by
  intro prs
  induction prs with
  | nil =>
    intro idx db a' ha'
    exact ⟨a', ha', rfl, Or.inl rfl⟩
  | cons pr rest ih =>
    intro idx db a' ha'
    obtain ⟨m, refs⟩ := pr
    rw [commit_list] at ha'
    obtain ⟨b1, hb1mem, hb1id, hb1rel⟩ := ih _ _ _ ha'
    rw [commit_one_assets] at hb1mem
    by_cases hre : refs.isEmpty = true
    · rw [if_pos hre] at hb1mem
      refine ⟨b1, hb1mem, hb1id, ?_⟩
      rcases hb1rel with rfl | ⟨iid, pr', hpr', hcond, heq⟩
      · exact Or.inl rfl
      · exact Or.inr ⟨iid, pr', List.mem_cons_of_mem _ hpr', hcond, heq⟩
    · rw [if_neg hre] at hb1mem
      obtain ⟨b, hbmem, hbeq⟩ := List.mem_map.mp hb1mem
      obtain ⟨bid, borg, bds, bitem, bkind, bkey, bct, bsize⟩ := b
      by_cases hcond : (borg == org && bds == did && refs.contains bid) = true
      · rw [if_pos hcond] at hbeq
        subst hbeq
        refine ⟨_, hbmem, hb1id, Or.inr ?_⟩
        rcases hb1rel with rfl | ⟨iid, pr', hpr', hcond', heq⟩
        · exact ⟨genId idx, (m, refs), List.mem_cons_self _ _, hcond, rfl⟩
        · exact ⟨iid, pr', List.mem_cons_of_mem _ hpr',
            by simpa using hcond', by simpa using heq⟩
      · rw [if_neg hcond] at hbeq
        subst hbeq
        refine ⟨_, hbmem, hb1id, ?_⟩
        rcases hb1rel with rfl | ⟨iid, pr', hpr', hcond', heq⟩
        · exact Or.inl rfl
        · exact Or.inr ⟨iid, pr', List.mem_cons_of_mem _ hpr', hcond', heq⟩

theorem mem_zip_get? {α β : Type} :
    ∀ {l1 : List α} {l2 : List β} {pr : α × β}, pr ∈ l1.zip l2 →
      ∃ i, l1.get? i = some pr.1 ∧ l2.get? i = some pr.2 := by
  intro l1
  induction l1 with
  | nil =>
    intro l2 pr hpr
    simp at hpr
  | cons x xs ih =>
    intro l2 pr hpr
    cases l2 with
    | nil => simp at hpr
    | cons y ys =>
      rcases List.mem_cons.mp hpr with rfl | hmem
      · exact ⟨0, rfl, rfl⟩
      · obtain ⟨i, h1, h2⟩ := ih hmem
        exact ⟨i + 1, h1, h2⟩

theorem extract_all_get? {manifest : List MItem} {rs : List (List String)}
    (h : extract_all manifest = .ok rs) :
    ∀ i m r, manifest.get? i = some m → rs.get? i = some r →
      extract_asset_ids m.itype m.payload = .ok r := by
  induction manifest generalizing rs with
  | nil =>
    intro i m r hm
    simp at hm
  | cons m0 rest ih =>
    intro i m r hm hr
    rw [extract_all] at h
    cases h0 : extract_asset_ids m0.itype m0.payload with
    | error e =>
      rw [h0] at h
      simp at h
    | ok refs0 =>
      rw [h0] at h
      cases hrest : extract_all rest with
      | error e =>
        rw [hrest] at h
        simp at h
      | ok rs0 =>
        rw [hrest] at h
        injection h with h
        subst h
        cases i with
        | zero =>
          injection hm with hm
          injection hr with hr
          subst hm
          subst hr
          exact h0
        | succ i =>
          exact ih hrest i m r hm hr

theorem contains_mem {l : List String} {a : String}
    (h : l.contains a = true) : a ∈ l := by
  simpa using h

theorem get_dataset_ok_facts {db : DB} {user : UserRow} {did : String}
    {ds : DatasetRow} (h : get_dataset_for_user db user did = .ok ds) :
    ds ∈ db.datasets ∧ ds.id = did ∧ ds.org_id = user.org_id := by
  unfold get_dataset_for_user at h
  cases hf : db.datasets.find? (fun d => d.id == did &&
      d.org_id == user.org_id) with
  | none =>
    rw [hf] at h
    simp at h
  | some row =>
    simp only [hf] at h
    have hmem := List.mem_of_find?_eq_some hf
    have hpred := List.find?_some hf
    simp only [Bool.and_eq_true, beq_iff_eq] at hpred
    have hrow : row = ds := by
      split at h
      · exact Except.ok.inj h
      · split at h
        · simp at h
        · exact Except.ok.inj h
    subst hrow
    exact ⟨hmem, hpred.1, hpred.2⟩

theorem linked_asset_no_append_match (db : DB) (org did : String)
    (manifest : List MItem) (refsPerItem : List (List String))
    (asset : AssetRow) (x : String)
    (hx : asset.item_id = some x) (ha : asset ∈ db.assets)
    (hub : ∀ b1 ∈ db.assets, ∀ b2 ∈ db.assets, b1.id = b2.id → b1 = b2)
    (hx_all : extract_all manifest = .ok refsPerItem)
    (hphase : manifest.enum.flatMap (fun ix => validate_manifest_item
      (dataset_unlinked_asset_ids db org did) " (append)" ix.1 ix.2) = []) :
    ∀ pr ∈ manifest.zip refsPerItem,
      (asset.org_id == org && asset.dataset_id == did &&
        pr.2.contains asset.id) = false := by
  intro pr hpr
  cases hc : (asset.org_id == org && asset.dataset_id == did &&
      pr.2.contains asset.id) with
  | false => rfl
  | true =>
    exfalso
    simp only [Bool.and_eq_true, beq_iff_eq] at hc
    obtain ⟨⟨horg, hdid⟩, hcontains⟩ := hc
    obtain ⟨i, hgi, hri⟩ := mem_zip_get? hpr
    have hxi := extract_all_get? hx_all i pr.1 pr.2 hgi hri
    have hmem_enum : (i, pr.1) ∈ manifest.enum :=
      List.mk_mem_enum_iff_get?.mpr hgi
    have hvi : validate_manifest_item (dataset_unlinked_asset_ids db org did)
        " (append)" i pr.1 = [] :=
      List.flatMap_eq_nil_iff.mp hphase (i, pr.1) hmem_enum
    have hsub := validate_manifest_item_refs hvi hxi asset.id
      (contains_mem hcontains)
    have hmemu : asset.id ∈ dataset_unlinked_asset_ids db org did :=
      contains_mem hsub
    unfold dataset_unlinked_asset_ids at hmemu
    obtain ⟨b, hbmem, hbid⟩ := List.mem_map.mp hmemu
    have hbf := List.mem_filter.mp hbmem
    have hbeq : b = asset := hub b hbf.1 asset ha hbid
    have hb2 := hbf.2
    rw [hbeq] at hb2
    simp only [Bool.and_eq_true, Option.isNone_iff_eq_none] at hb2
    rw [hx] at hb2
    exact Option.some_ne_none x hb2.2

/-- C5: an asset already linked to an item (non-null `item_id`) is
append-only: a byte upload to it — through the session path or the token
path — is rejected with a 409, and neither a successful append nor a
successful publish (the latter from any state satisfying the draft
invariant that a draft dataset's assets are unlinked) changes its row:
it stays in the asset table verbatim and no asset with its id is
re-targeted. -/
theorem C5_append_only_assets
    (mac : Mac) (secret : PyStr) (now : Int) (eav : Bool)
    (scan : List Nat → String → String → Bool) (db : DB) (store : Store)
    (user : UserRow) (asset : AssetRow) (x : String) (token : PyStr)
    (body : List Nat) (head : String → Except Unit HeadMeta) (ing rl : Bool)
    (genId : Nat → String) (now2 : Int) (user2 : UserRow) (did : String)
    (manifest : List MItem) (db3 db4 : DB) (n n2 : Nat)
    (hx : asset.item_id = some x) (ha : asset ∈ db.assets)
    (hub : ∀ b1 ∈ db.assets, ∀ b2 ∈ db.assets, b1.id = b2.id → b1 = b2) :
    ((user.role = "admin" ∨ user.role = "publisher") →
      get_asset_for_user db user asset.id = .ok asset →
      ∃ e, upload_asset mac secret now eav scan db store (some user) asset.id
        token body = (store, .err e) ∧ e.status = 409) ∧
    (db.assets.find? (fun a => a.id == asset.id) = some asset →
      verify_upload_token mac secret now token asset.id.data asset.org_id.data
        asset.dataset_id.data asset.byte_size = .ok true →
      ∃ e, upload_asset mac secret now eav scan db store none asset.id token
        body = (store, .err e) ∧ e.status = 409) ∧
    (append_dataset head ing rl genId db user2 did manifest = (db3, .ok n) →
      asset ∈ db3.assets ∧ ∀ a2 ∈ db3.assets, a2.id = asset.id → a2 = asset) ∧
    ((∀ d ∈ db.datasets, d.id = did → d.org_id = user2.org_id →
        d.status = "draft" → ∀ a2 ∈ db.assets, a2.org_id = user2.org_id →
          a2.dataset_id = did → a2.item_id = none) →
      publish_dataset head ing rl genId now2 db user2 did manifest
        = (db4, .ok n2) →
      asset ∈ db4.assets ∧ ∀ a2 ∈ db4.assets, a2.id = asset.id → a2 = asset) := by
  refine ⟨?_, ?_, ?_, ?_⟩
  · intro hrole hget
    have hb : (user.role == "admin" || user.role == "publisher") = true := by
      rcases hrole with h | h <;> simp [h]
    cases hdd : db.datasets.find? (fun d => d.id == asset.dataset_id &&
        d.org_id == asset.org_id &&
        (d.status == "draft" || d.status == "published")) with
    | none =>
      refine ⟨⟨409, "Dataset must be draft or published"⟩, ?_, rfl⟩
      unfold upload_asset upload_asset_after_auth
      simp only [hb, Bool.not_true, Bool.false_eq_true, if_false, hget, hdd]
    | some d =>
      refine ⟨⟨409, "Asset already linked to an item"⟩, ?_, rfl⟩
      unfold upload_asset upload_asset_after_auth
      simp only [hb, Bool.not_true, Bool.false_eq_true, if_false, hget, hdd,
        hx]
  · intro hfind htok
    cases hdd : db.datasets.find? (fun d => d.id == asset.dataset_id &&
        d.org_id == asset.org_id &&
        (d.status == "draft" || d.status == "published")) with
    | none =>
      refine ⟨⟨409, "Dataset must be draft or published"⟩, ?_, rfl⟩
      unfold upload_asset upload_asset_after_auth
      simp only [hfind, htok, hdd]
    | some d =>
      refine ⟨⟨409, "Asset already linked to an item"⟩, ?_, rfl⟩
      unfold upload_asset upload_asset_after_auth
      simp only [hfind, htok, hdd, hx]
  · intro happ
    obtain ⟨refsPerItem, ds, hx_all, hds_ok, hstat, hphase, hint, hdb3⟩ :=
      append_dataset_ok_inv head ing rl genId db user2 did manifest db3 n happ
    have hnomatch := linked_asset_no_append_match db user2.org_id did manifest
      refsPerItem asset x hx ha hub hx_all hphase
    constructor
    · rw [hdb3]
      exact commit_list_preserves_row genId user2.org_id did
        (manifest.zip refsPerItem) 0 db asset ha hnomatch
    · intro a2 ha2 hid
      rw [hdb3] at ha2
      obtain ⟨b, hbmem, hbid, hrel⟩ := commit_list_assets_shape genId
        user2.org_id did (manifest.zip refsPerItem) 0 db a2 ha2
      have hbid2 : b.id = asset.id := by rw [← hbid]; exact hid
      have hbeq : b = asset := hub b hbmem asset ha hbid2
      rcases hrel with hrel | ⟨iid, pr, hpr, hcond, -⟩
      · rw [hrel, hbeq]
      · exfalso
        rw [hbeq, hnomatch pr hpr] at hcond
        exact Bool.false_ne_true hcond
  · intro hinv hpub
    obtain ⟨refsPerItem, ds, hx_all, hds_ok, hstat, hphase, hint, hdb4⟩ :=
      publish_dataset_ok_inv head ing rl genId now2 db user2 did manifest
        db4 n2 hpub
    obtain ⟨hdsmem, hdsid, hdsorg⟩ := get_dataset_ok_facts hds_ok
    have hinv2 : ∀ a2 ∈ db.assets, a2.org_id = user2.org_id →
        a2.dataset_id = did → a2.item_id = none :=
      hinv ds hdsmem hdsid hdsorg hstat
    have hnomatch : ∀ pr ∈ manifest.zip refsPerItem,
        (asset.org_id == user2.org_id && asset.dataset_id == did &&
          pr.2.contains asset.id) = false := by
      intro pr hpr
      cases hc : (asset.org_id == user2.org_id && asset.dataset_id == did &&
          pr.2.contains asset.id) with
      | false => rfl
      | true =>
        exfalso
        simp only [Bool.and_eq_true, beq_iff_eq] at hc
        have := hinv2 asset ha hc.1.1 hc.1.2
        rw [hx] at this
        exact Option.some_ne_none x this
    constructor
    · rw [hdb4]
      show asset ∈ (commit_list genId user2.org_id did 0
        (manifest.zip refsPerItem) db).assets
      exact commit_list_preserves_row genId user2.org_id did
        (manifest.zip refsPerItem) 0 db asset ha hnomatch
    · intro a2 ha2 hid
      rw [hdb4] at ha2
      have ha2' : a2 ∈ (commit_list genId user2.org_id did 0
          (manifest.zip refsPerItem) db).assets := ha2
      obtain ⟨b, hbmem, hbid, hrel⟩ := commit_list_assets_shape genId
        user2.org_id did (manifest.zip refsPerItem) 0 db a2 ha2'
      have hbid2 : b.id = asset.id := by rw [← hbid]; exact hid
      have hbeq : b = asset := hub b hbmem asset ha hbid2
      rcases hrel with hrel | ⟨iid, pr, hpr, hcond, -⟩
      · rw [hrel, hbeq]
      · exfalso
        rw [hbeq, hnomatch pr hpr] at hcond
        exact Bool.false_ne_true hcond

/-- C5 witness: in a concrete published dataset, uploading to the linked
asset `zz` through an admin session yields a 409, and a successful append
of a manifest referencing only the unlinked asset keeps the linked asset
row unchanged in the asset table. -/
theorem C5_append_only_assets_witness :
    (∃ e, upload_asset wmac [] 0 false (fun _ _ _ => true) c5db []
      (some c4user) "zz" ['x'] [1, 2, 3] = ([], .err e) ∧ e.status = 409) ∧
    c5linked ∈ ((append_dataset okHead3 true false (fun _ => "i0") c5db
      c4user "d1" c5manifest).1).assets := by
  have h := C5_append_only_assets wmac [] 0 false (fun _ _ _ => true) c5db []
    c4user c5linked "i9" ['x'] [1, 2, 3] okHead3 true false (fun _ => "i0")
    0 c4user "d1" c5manifest
    ((append_dataset okHead3 true false (fun _ => "i0") c5db c4user "d1"
      c5manifest).1)
    c5db 1 0 rfl (by decide) (by decide)
  refine ⟨h.1 (Or.inl rfl) rfl, ?_⟩
  exact (h.2.2.1 rfl).1

/-- C6: under the upload preconditions (admin/publisher session with
access to the asset, dataset in draft or published state, unlinked asset,
verifying token, AV scan disabled as configured), the upload succeeds —
writing the body under the asset's storage key — exactly when the
received byte count equals the declared `byte_size`; on a mismatch it
returns 422 with the size-mismatch detail and the store is unchanged.
Moreover a successful publish forces, for every asset id referenced by a
manifest item and allocated to the dataset, a storage head success whose
reported content length (when reported) equals the Asset row's
`byte_size`. -/
theorem C6_upload_size_exactness
    (mac : Mac) (secret : PyStr) (now : Int)
    (scan : List Nat → String → String → Bool) (db : DB) (store : Store)
    (user : UserRow) (asset : AssetRow) (token : PyStr) (body : List Nat)
    (head : String → Except Unit HeadMeta) (ing rl : Bool)
    (genId : Nat → String) (now2 : Int) (db2 : DB) (user2 : UserRow)
    (did : String) (manifest : List MItem) (db3 : DB) (n : Nat)
    (hrole : user.role = "admin" ∨ user.role = "publisher")
    (hasset : get_asset_for_user db user asset.id = .ok asset)
    (hds : (db.datasets.find? (fun d => d.id == asset.dataset_id &&
      d.org_id == asset.org_id &&
      (d.status == "draft" || d.status == "published"))).isSome = true)
    (hunlinked : asset.item_id = none)
    (htok : verify_upload_token mac secret now token asset.id.data
      asset.org_id.data asset.dataset_id.data asset.byte_size = .ok true) :
    (upload_asset mac secret now false scan db store (some user) asset.id
        token body = (storeWrite store asset.storage_key body, .ok) ↔
      (body.length : Int) = asset.byte_size) ∧
    ((body.length : Int) ≠ asset.byte_size →
      upload_asset mac secret now false scan db store (some user) asset.id
        token body = (store, .err ⟨422, "Size mismatch: expected " ++
          String.mk (intDecimal asset.byte_size) ++ ", got " ++
          String.mk (intDecimal (body.length : Int))⟩)) ∧
    (publish_dataset head ing rl genId now2 db2 user2 did manifest
        = (db3, .ok n) →
      ∀ m ∈ manifest, ∀ refs, extract_asset_ids m.itype m.payload = .ok refs →
        ∀ aid ∈ refs,
          (dataset_asset_ids db2 user2.org_id did).contains aid = true →
          ∃ row meta,
            db2.assets.find? (fun a => a.id == aid &&
              a.org_id == user2.org_id && a.dataset_id == did) = some row ∧
            head row.storage_key = .ok meta ∧
            ∀ sz, meta.content_length = some sz → sz = row.byte_size) := by
  have hb : (user.role == "admin" || user.role == "publisher") = true := by
    rcases hrole with h | h <;> simp [h]
  obtain ⟨d, hd⟩ := Option.isSome_iff_exists.mp hds
  refine ⟨⟨?_, ?_⟩, ?_, ?_⟩
  · intro heq
    by_contra hne
    unfold upload_asset upload_asset_after_auth at heq
    simp only [hb, Bool.not_true, Bool.false_eq_true, if_false, hasset, hd,
      hunlinked, htok] at heq
    rw [if_pos hne] at heq
    have := congrArg Prod.snd heq
    simp at this
  · intro hlen
    unfold upload_asset upload_asset_after_auth
    simp only [hb, Bool.not_true, Bool.false_eq_true, if_false, hasset, hd,
      hunlinked, htok]
    rw [if_neg (by omega), if_neg (by simp)]
  · intro hne
    unfold upload_asset upload_asset_after_auth
    simp only [hb, Bool.not_true, Bool.false_eq_true, if_false, hasset, hd,
      hunlinked, htok]
    rw [if_pos hne]
  · intro hpub m hm refs hrefs aid haid hcont
    obtain ⟨refsPerItem, ds, hx_all, hds_ok, hstat, hphase, hint, hdb3⟩ :=
      publish_dataset_ok_inv head ing rl genId now2 db2 user2 did manifest
        db3 n hpub
    have hmemref : refs ∈ refsPerItem := extract_all_mem hx_all m hm refs hrefs
    have haidu : aid ∈ union_refs refsPerItem := mem_union_refs hmemref haid
    unfold integrity_errors at hint
    have hinner := List.flatMap_eq_nil_iff.mp hint aid haidu
    simp only [hcont, Bool.not_true, Bool.false_eq_true, if_false] at hinner
    cases hfind : db2.assets.find? (fun a => a.id == aid &&
        a.org_id == user2.org_id && a.dataset_id == did) with
    | none =>
      exfalso
      have hmem : aid ∈ dataset_asset_ids db2 user2.org_id did :=
        contains_mem hcont
      unfold dataset_asset_ids at hmem
      obtain ⟨b, hbmem, hbid⟩ := List.mem_map.mp hmem
      have hbf := List.mem_filter.mp hbmem
      have hb2 := hbf.2
      simp only [Bool.and_eq_true, beq_iff_eq] at hb2
      have hnone := List.find?_eq_none.mp hfind b hbf.1
      apply hnone
      simp only [Bool.and_eq_true, beq_iff_eq]
      exact ⟨⟨hbid, hb2.1⟩, hb2.2⟩
    | some row =>
      simp only [hfind] at hinner
      cases hhead : head row.storage_key with
      | error e =>
        simp only [hhead] at hinner
        simp at hinner
      | ok meta =>
        simp only [hhead] at hinner
        rw [List.append_eq_nil] at hinner
        refine ⟨row, meta, rfl, hhead, ?_⟩
        intro sz hsz
        have h1 := hinner.1
        simp only [hsz] at h1
        by_contra hne
        rw [if_pos hne] at h1
        simp at h1

/-- C6 witness: on the concrete draft fixture, a 3-byte upload to the
size-3 asset succeeds and writes the bytes, a 2-byte upload is rejected
with the 422 size-mismatch detail, and a successful publish referencing
the allocated UUID asset finds its row with a storage-head size equal to
its recorded `byte_size`. -/
theorem C6_upload_size_exactness_witness :
    upload_asset wmac [] 0 false (fun _ _ _ => true) c4db [] (some c4user)
        "a1" (create_upload_token wmac [] 100 0 "a1".data "o1".data "d1".data 3)
        [9, 9, 9]
      = (storeWrite [] "k1" [9, 9, 9], .ok) ∧
    upload_asset wmac [] 0 false (fun _ _ _ => true) c4db [] (some c4user)
        "a1" (create_upload_token wmac [] 100 0 "a1".data "o1".data "d1".data 3)
        [9, 9]
      = ([], .err ⟨422, "Size mismatch: expected 3, got 2"⟩) ∧
    ∃ row meta,
      c6db.assets.find? (fun a => a.id == uuidA && a.org_id == "o1" &&
        a.dataset_id == "d1") = some row ∧
      okHead3 row.storage_key = .ok meta ∧
      ∀ sz, meta.content_length = some sz → sz = row.byte_size := by
  have h := C6_upload_size_exactness wmac [] 0 (fun _ _ _ => true) c4db []
    c4user c4asset
    (create_upload_token wmac [] 100 0 "a1".data "o1".data "d1".data 3)
    [9, 9, 9] okHead3 true false (fun _ => "i0") 0 c6db c4user "d1"
    c5manifest
    ((publish_dataset okHead3 true false (fun _ => "i0") 0 c6db c4user "d1"
      c5manifest).1)
    1 (Or.inl rfl) rfl (by decide) rfl rfl
  have h2 := C6_upload_size_exactness wmac [] 0 (fun _ _ _ => true) c4db []
    c4user c4asset
    (create_upload_token wmac [] 100 0 "a1".data "o1".data "d1".data 3)
    [9, 9] okHead3 true false (fun _ => "i0") 0 c6db c4user "d1"
    c5manifest
    ((publish_dataset okHead3 true false (fun _ => "i0") 0 c6db c4user "d1"
      c5manifest).1)
    1 (Or.inl rfl) rfl (by decide) rfl rfl
  refine ⟨h.1.mpr (by decide), ?_, ?_⟩
  · exact (h2.2.1 (by decide)).trans (by decide)
  · exact h.2.2 rfl c5mitem (List.mem_singleton.mpr rfl) [uuidA] rfl uuidA
      (List.mem_singleton.mpr rfl) rfl

end DataViewer
